import Mathlib

/-!
Verification of the graph replay engine (`mimic_bundles` and its helpers in
`codalab/lib/bundle_util.py`, error classes in `codalab/common.py`) against its
natural-language specification.

Shallow embedding conventions:
* A Python bundle-uuid value (a `str` or `None`) is `U := Option String`,
  with `none` playing the role of Python `None`.
* Python dictionaries used as finite maps become association lists
  (`alookup` / `aset` / `adel`), Python sets become duplicate-free lists
  (`sadd` / membership).
* The remote collaborator store (`client.fetch` / `client.create`) is part
  of the environment `Env`: `initInfos` is the response to the initial
  bundle fetch, `store` answers fetch-by-uuid during ancestor collection,
  `memoBundles` answers the search-by-command-and-dependencies query,
  `hostWorksheets` and `worksheetItems` answer the worksheet queries.
  `client.create('bundles', info, params)` is modelled as returning the
  submitted description with a fresh uuid `gen k` allocated from a counter;
  the call itself is recorded in `St.bundleCreates`.
* `get_bundle_subclass(t).METADATA_SPECS` lives outside the sources under
  verification; it is the environment field `specsOf` (key + generated flag
  of each declared metadata field, as the spec describes the schema).
* Exceptions (`UsageError`, `KeyError`, `NotFoundError`, the
  `UnboundLocalError` of an unassigned `anchor_uuid`) are the error type
  `MErr`; a raised exception propagates with the state reached so far, since
  bundles already created in the remote store stay committed.
* The unbounded Python recursion of `recurse` is given an explicit fuel
  parameter; `none` means the fuel was exhausted, so "the real recursion
  terminates on this input" is `∃ fuel, recurseF … fuel ≠ none`.
-/

/-- A Python bundle-uuid value: a string, or `None`. -/
abbrev U := Option String

/-- Dictionary lookup on an association list (Python `d[k]` / `k in d`). -/
def alookup {α β : Type} [DecidableEq α] : List (α × β) → α → Option β
  | [], _ => none
  | p :: rest, a => if p.1 = a then some p.2 else alookup rest a

/-- Dictionary update `d[k] = v`: replace in place if the key is present
(keeping its position, as Python dicts do), else append. -/
def aset {α β : Type} [DecidableEq α] (l : List (α × β)) (k : α) (v : β) :
    List (α × β) :=
  if (alookup l k).isSome then
    l.map (fun p => if p.1 = k then (k, v) else p)
  else l ++ [(k, v)]

/-- Dictionary deletion `del d[k]`. -/
def adel {α β : Type} [DecidableEq α] : List (α × β) → α → List (α × β)
  | [], _ => []
  | p :: rest, k => if p.1 = k then adel rest k else p :: adel rest k

/-- Python `set.add`: append unless already present. -/
def sadd {α : Type} [DecidableEq α] (l : List α) (x : α) : List α :=
  if x ∈ l then l else l ++ [x]

/-- Python truthiness of a string-or-None value (`if old_output:`):
false for `None` and for the empty string. -/
def truthy : Option String → Bool
  | none => false
  | some s => decide (s ≠ "")

/-- A dependency edge of a bundle description (`parent_uuid`, `parent_path`,
`child_uuid`, `child_path`).  `parent_uuid` is `U` because during
substitution a rewritten dependency can carry the dry-run placeholder
`None`. -/
structure Dependency where
  parent_uuid : U
  parent_path : String
  child_uuid : U
  child_path : String
deriving DecidableEq, Repr

/-- One entry of `get_bundle_subclass(t).METADATA_SPECS`: the field key and
its `generated` flag (server-computed fields are stripped before create). -/
structure MetadataSpec where
  key : String
  generated : Bool
deriving DecidableEq, Repr

/-- A bundle description as the engine sees it.  `uuid := none` models the
key having been popped or set to `None`; `state_details := none` models the
`state_details` key being absent (so that a no-default `pop` raises). -/
structure BundleInfo where
  uuid : U
  bundle_type : String
  command : Option String
  metadata : List (String × String)
  dependencies : List Dependency
  state_details : Option String
deriving DecidableEq, Repr

/-- The kind of a worksheet item (`worksheet_util.TYPE_*`). -/
inductive WItemType
  | bundle
  | markup
  | directive
  | other
deriving DecidableEq, Repr

/-- A worksheet item as returned by the worksheet fetch with resolved
bundles: its type, the referenced bundle id (`item['bundle']['id']`,
meaningful for bundle items), and its text value (`item['value']`). -/
structure WItem where
  type : WItemType
  bundleId : String
  value : String
deriving DecidableEq, Repr

/-- A `client.create('worksheet-items', …)` call issued during placement:
either a copy of a prelude item retargeted at a worksheet, or a fresh
bundle-reference item. -/
inductive WICreate
  | preludeCopy (item : WItem) (worksheet : String)
  | bundleRef (bundle : U) (worksheet : String)
deriving DecidableEq, Repr

/-- A `client.create('bundles', data, params)` call issued during
substitution: the submitted description plus the `worksheet`, `shadow` and
`detached` parameters. -/
structure BundleCreate where
  data : BundleInfo
  worksheet : String
  shadowOf : Option U
  detached : Bool
deriving DecidableEq, Repr

/-- The exceptions the engine can raise: `UsageError` ("Can't mimic %s since
it is not make or run", carrying the offending uuid), a dict `KeyError`,
the client's `NotFoundError` on a failed fetch, and the
`UnboundLocalError` raised when `anchor_uuid` is read unassigned. -/
inductive MErr
  | usage (u : U)
  | keyError (key : String)
  | notFound (u : U)
  | unboundLocal (v : String)
deriving DecidableEq, Repr

/-- The mutable state of one `mimic_bundles` invocation: `old_to_new`,
`downstream`, `created_uuids`, `plan`, plus the record of bundle-create
calls issued to the store and the fresh-uuid counter of the modelled
store. -/
structure St where
  old_to_new : List (U × U)
  downstream : List U
  created_uuids : List U
  plan : List (BundleInfo × BundleInfo)
  bundleCreates : List BundleCreate
  fresh : Nat
deriving DecidableEq, Repr

/-- The invocation parameters of `mimic_bundles` together with the
collaborator store's behaviour (see the module comment). -/
structure Env where
  old_inputs : List String
  old_output : U
  new_inputs : List String
  new_output_name : Option String
  worksheet_uuid : String
  depth : Nat
  shadow : Bool
  dry_run : Bool
  metadata_override : List (String × String)
  skip_prelude : Bool
  memoize : Bool
  initInfos : List BundleInfo
  store : U → Option BundleInfo
  memoBundles : Option String → List (String × U) → List BundleInfo
  specsOf : String → List MetadataSpec
  hostWorksheets : String → List String
  worksheetItems : String → List WItem

/-- The uuid the modelled store allocates for the `k`-th bundle create. -/
def gen (k : Nat) : String := "new-" ++ toString k

/-- One iteration of the `for spec in cls.METADATA_SPECS` loop (lines
188–194): remove the field if it is generated and present, then overwrite
it with the caller's override if one was supplied. -/
def specStep (ov : List (String × String)) (m : List (String × String))
    (spec : MetadataSpec) : List (String × String) :=
  let m' := if spec.generated ∧ (alookup m spec.key).isSome
            then adel m spec.key else m
  match alookup ov spec.key with
  | some v => aset m' spec.key v
  | none => m'

/-- The metadata rewriting of `recurse` for a needs-new node (lines
171–194): the optional name rewrite (the designated output gets the literal
override name, every other node the synthesized `"{override}-{oldName}"`,
raising `KeyError` if the old name is absent), the
`docker_image → request_docker_image` copy for run bundles, and the
per-schema-field loop that drops generated fields and then applies the
caller's metadata overrides. -/
def buildMeta (env : Env) (u : U) (old_info : BundleInfo) :
    Except MErr (List (String × String)) :=
  let m0 := old_info.metadata
  let m1E : Except MErr (List (String × String)) :=
    if truthy env.new_output_name then
      if u = env.old_output then
        .ok (aset m0 "name" (env.new_output_name.getD ""))
      else
        match alookup old_info.metadata "name" with
        | some oldName =>
            .ok (aset m0 "name" (env.new_output_name.getD "" ++ "-" ++ oldName))
        | none => .error (.keyError "name")
    else .ok m0
  match m1E with
  | .error e => .error e
  | .ok m1 =>
    let m2 :=
      if old_info.bundle_type = "run" ∧ (alookup m1 "docker_image").getD "" ≠ ""
      then aset m1 "request_docker_image" ((alookup m1 "docker_image").getD "")
      else m1
    .ok ((env.specsOf old_info.bundle_type).foldl
          (specStep env.metadata_override) m2)

/-- The common tail of the needs-new branch (lines 237–245): read the new
uuid, append to the plan, add the old id to `downstream`, add the new id
to `created_uuids`, cache the mapping, and return the new id. -/
def finishNode (u : U) (old_info new_info : BundleInfo) (s : St) :
    Option (Except MErr U × St) :=
  let nb := new_info.uuid
  some (.ok nb, { s with
    plan := s.plan ++ [(old_info, new_info)],
    downstream := sadd s.downstream u,
    created_uuids := sadd s.created_uuids nb,
    old_to_new := aset s.old_to_new u nb })

/-- The substituted-dependency list of lines 144–154: recursively resolve
each dependency's parent in order, keeping paths and the `child_uuid`
placeholder unchanged; an exception or fuel exhaustion in any recursive
call aborts the whole comprehension. -/
def depsStep (rec : U → St → Option (Except MErr U × St)) :
    List Dependency → St → Option (Except MErr (List Dependency) × St)
  | [], s => some (.ok [], s)
  | d :: ds, s =>
    match rec d.parent_uuid s with
    | none => none
    | some (.error e, s1) => some (.error e, s1)
    | some (.ok p, s1) =>
      match depsStep rec ds s1 with
      | none => none
      | some (.error e, s2) => some (.error e, s2)
      | some (.ok rest, s2) =>
        some (.ok ({ parent_uuid := p, parent_path := d.parent_path,
                     child_uuid := d.child_uuid, child_path := d.child_path }
                   :: rest), s2)

/-- One unfolding of `recurse` (lines 134–245), parametric in the function
used for recursive calls.  Follows the source line by line: the
`old_to_new` early return, the missing-description boundary, the
substituted-dependency list, the `lone_output` / `downstream_of_inputs`
classification (over the original parent ids), and the needs-new branch
(state-details pop, metadata rewrite, memo lookup, dry-run placeholder,
memo adoption of the last match, make/run check, store create). -/
def bodyStep (env : Env) (infos : List (U × BundleInfo))
    (rec : U → St → Option (Except MErr U × St)) (u : U) (s : St) :
    Option (Except MErr U × St) :=
  match alookup s.old_to_new u with
  | some v => some (.ok v, s)
  | none =>
    match alookup infos u with
    | none => some (.ok u, s)
    | some old_info =>
      match depsStep rec old_info.dependencies s with
      | none => none
      | some (.error e, s1) => some (.error e, s1)
      | some (.ok new_deps, s1) =>
        if (env.old_inputs.length = 0 ∧ u = env.old_output) ∨
           (∃ d ∈ old_info.dependencies, d.parent_uuid ∈ s1.downstream) then
          match old_info.state_details with
          | none => some (.error (.keyError "state_details"), s1)
          | some _ =>
            match buildMeta env u old_info with
            | .error e => some (.error e, s1)
            | .ok new_metadata =>
              let base : BundleInfo :=
                { uuid := none, bundle_type := old_info.bundle_type,
                  command := old_info.command, metadata := new_metadata,
                  dependencies := new_deps, state_details := none }
              let memoized := env.memoBundles old_info.command
                (new_deps.map (fun d => (d.child_path, d.parent_uuid)))
              if env.dry_run then
                finishNode u old_info base s1
              else if env.memoize ∧ memoized ≠ [] then
                finishNode u old_info (memoized.getLastD base) s1
              else if old_info.bundle_type ≠ "make" ∧
                      old_info.bundle_type ≠ "run" then
                some (.error (.usage u), s1)
              else
                let newInfo := { base with uuid := some (gen s1.fresh) }
                let s2 : St := { s1 with
                  bundleCreates := s1.bundleCreates ++
                    [{ data := base, worksheet := env.worksheet_uuid,
                       shadowOf := if env.shadow then some old_info.uuid
                                   else none,
                       detached := !env.shadow }],
                  fresh := s1.fresh + 1 }
                finishNode u old_info newInfo s2
        else
          some (.ok u, { s1 with old_to_new := aset s1.old_to_new u u })

/-- `recurse` with explicit fuel: `none` means the recursion depth budget
ran out (the Python recursion has no such bound, so divergence of the
source corresponds to `recurseF` returning `none` at every fuel). -/
def recurseF (env : Env) (infos : List (U × BundleInfo)) :
    Nat → U → St → Option (Except MErr U × St)
  | 0, _, _ => none
  | fuel + 1, u, s => bodyStep env infos (recurseF env infos fuel) u s

/-- The driver loop of lines 249–253: `recurse` every uuid in the ancestor
closure in order. -/
def runAll (env : Env) (infos : List (U × BundleInfo)) (fuel : Nat) :
    List U → St → Option (Except MErr Unit × St)
  | [], s => some (.ok (), s)
  | u :: us, s =>
    match recurseF env infos fuel u s with
    | none => none
    | some (.error e, s1) => some (.error e, s1)
    | some (.ok _, s1) => runAll env infos fuel us s1

/-- One round's inner loop of `get_self_and_ancestors` (lines 94–111):
walk the frontier, skip visited ids, fetch missing descriptions from the
store (raising `NotFoundError` on a miss), and append every parent id not
yet cached to the next frontier. -/
def collectInner (env : Env) :
    List U → List U → List (U × BundleInfo) → List U →
    Except MErr (List U × List U × List (U × BundleInfo))
  | [], visited, infos, nextAcc => .ok (nextAcc, visited, infos)
  | b :: bs, visited, infos, nextAcc =>
    if b ∈ visited then collectInner env bs visited infos nextAcc
    else
      match alookup infos b with
      | some info =>
        collectInner env bs (sadd visited b) infos
          (nextAcc ++ (info.dependencies.filter
            (fun d => (alookup infos d.parent_uuid).isNone)).map
            (fun d => d.parent_uuid))
      | none =>
        match env.store b with
        | some info =>
          let infos1 := aset infos b info
          collectInner env bs (sadd visited b) infos1
            (nextAcc ++ (info.dependencies.filter
              (fun d => (alookup infos1 d.parent_uuid).isNone)).map
              (fun d => d.parent_uuid))
        | none => .error (.notFound b)

/-- The `for _ in range(depth)` loop of `get_self_and_ancestors` (lines
93–118): run `depth` rounds, prepending each round's newly discovered
frontier to the running result. -/
def collectRounds (env : Env) :
    Nat → List U → List U → List (U × BundleInfo) → List U →
    Except MErr (List U × List (U × BundleInfo))
  | 0, _, _, infos, result => .ok (result, infos)
  | d + 1, frontier, visited, infos, result =>
    match collectInner env frontier visited infos [] with
    | .error e => .error e
    | .ok (next, visited1, infos1) =>
      collectRounds env d next visited1 infos1 (next ++ result)

/-- `infos = {b['uuid']: b for b in infos}` (line 85). -/
def mkInfos (l : List BundleInfo) : List (U × BundleInfo) :=
  l.foldl (fun acc b => aset acc b.uuid b) []

/-- The empty invocation state. -/
def St.empty : St :=
  { old_to_new := [], downstream := [], created_uuids := [], plan := [],
    bundleCreates := [], fresh := 0 }

/-- Seeding of lines 129–131: map each explicit old input to its new input
and mark it downstream. -/
def seedSt (env : Env) : St :=
  (env.old_inputs.zip env.new_inputs).foldl
    (fun st p => { st with
      old_to_new := aset st.old_to_new (some p.1) (some p.2),
      downstream := sadd st.downstream (some p.1) }) St.empty

/-- The placement-phase record: worksheet-item create calls issued, and
`new_bundle_uuids_added`. -/
structure PlaceSt where
  itemCreates : List WICreate
  added : List U
deriving DecidableEq, Repr

/-- The empty placement record. -/
def PlaceSt.empty : PlaceSt := { itemCreates := [], added := [] }

/-- The host-worksheet scan of lines 287–327: walk the items keeping a
prelude buffer; a bundle item whose old id maps to a created new id
flushes the buffer (as retargeted copies, unless `skip_prelude`) followed
by a new bundle item; a non-empty markup or a directive joins the buffer;
anything else clears it. -/
def scanItems (env : Env) (otn : List (U × U)) (created : List U) :
    List WItem → List WItem → PlaceSt → PlaceSt
  | [], _, ps => ps
  | item :: rest, pbuf, ps =>
    let ps1 :=
      if item.type = .bundle then
        match alookup otn (some item.bundleId) with
        | some nb =>
          if nb ∈ created then
            let ps' :=
              if env.skip_prelude then ps
              else { ps with itemCreates := ps.itemCreates ++
                       pbuf.map (fun p => WICreate.preludeCopy p env.worksheet_uuid) }
            { itemCreates := ps'.itemCreates ++
                [WICreate.bundleRef nb env.worksheet_uuid],
              added := sadd ps'.added nb }
          else ps
        | none => ps
      else ps
    let pbuf1 :=
      if (item.type = .markup ∧ item.value ≠ "") ∨ item.type = .directive
      then pbuf ++ [item] else []
    scanItems env otn created rest pbuf1 ps1

/-- The final pass of lines 330–342: append a bundle item for every plan
entry whose new id was not placed during the scan. -/
def addRemaining (env : Env) (plan : List (BundleInfo × BundleInfo))
    (ps : PlaceSt) : PlaceSt :=
  plan.foldl (fun acc e =>
    if e.2.uuid ∈ acc.added then acc
    else { acc with itemCreates := acc.itemCreates ++
             [WICreate.bundleRef e.2.uuid env.worksheet_uuid] }) ps

/-- The worksheet-placement phase of lines 256–342: compute the anchor
(raising the `UnboundLocalError` of an unassigned `anchor_uuid` when
`old_output` is falsy and `old_inputs` is empty), pick a host worksheet
favouring the target, scan it, then add the remaining plan entries. -/
def placeAll (env : Env) (s : St) : Except MErr PlaceSt :=
  let anchorE : Except MErr String :=
    if truthy env.old_output then .ok (env.old_output.getD "")
    else match env.old_inputs with
      | a :: _ => .ok a
      | [] => .error (.unboundLocal "anchor_uuid")
  match anchorE with
  | .error e => .error e
  | .ok anchor =>
    let hosts := env.hostWorksheets anchor
    let ps1 :=
      match hosts with
      | [] => PlaceSt.empty
      | h :: _ =>
        let host := if env.worksheet_uuid ∈ hosts then env.worksheet_uuid
                    else h
        scanItems env s.old_to_new s.created_uuids
          (env.worksheetItems host) [] PlaceSt.empty
    .ok (addRemaining env s.plan ps1)

/-- The whole of `mimic_bundles` (lines 44–344): initial fetch, ancestor
collection, seeded postorder substitution (single anchor when `old_output`
is truthy, otherwise every id of the closure), and — unless dry-run or
shadow — worksheet placement; returns the plan.  `none` means the
substitution recursion exceeded the fuel. -/
def mimicF (env : Env) (fuel : Nat) :
    Option (Except MErr (List (BundleInfo × BundleInfo)) × St × PlaceSt) :=
  let infos0 := mkInfos env.initInfos
  match collectRounds env env.depth (infos0.map (fun p => p.1)) [] infos0
      (infos0.map (fun p => p.1)) with
  | .error e => some (.error e, seedSt env, PlaceSt.empty)
  | .ok (all_uuids, infos) =>
    let s0 := seedSt env
    let phase1 : Option (Except MErr Unit × St) :=
      if truthy env.old_output then
        match recurseF env infos fuel env.old_output s0 with
        | none => none
        | some (.error e, s) => some (.error e, s)
        | some (.ok _, s) => some (.ok (), s)
      else runAll env infos fuel all_uuids s0
    match phase1 with
    | none => none
    | some (.error e, s) => some (.error e, s, PlaceSt.empty)
    | some (.ok _, s) =>
      if env.dry_run = false ∧ env.shadow = false then
        match placeAll env s with
        | .error e => some (.error e, s, PlaceSt.empty)
        | .ok ps => some (.ok s.plan, s, ps)
      else some (.ok s.plan, s, PlaceSt.empty)

/-! ## Basic lemmas about the dictionary and set operations -/

theorem alookup_append_of_none {α β : Type} [DecidableEq α]
    {l1 : List (α × β)} (l2 : List (α × β)) {k : α}
    (h : alookup l1 k = none) : alookup (l1 ++ l2) k = alookup l2 k := by
  induction l1 with
  | nil => rfl
  | cons p rest ih =>
    by_cases hp : p.1 = k
    · simp [alookup, hp] at h
    · simp only [alookup, List.cons_append, if_neg hp] at h ⊢
      exact ih h

theorem alookup_map_subst {α β : Type} [DecidableEq α]
    (l : List (α × β)) (k : α) (v : β) :
    alookup (l.map (fun p => if p.1 = k then (k, v) else p)) k =
      if (alookup l k).isSome then some v else none := by
  induction l with
  | nil => rfl
  | cons p rest ih =>
    by_cases hp : p.1 = k
    · simp only [List.map_cons, if_pos hp, alookup, if_pos rfl]
      simp
    · simp only [List.map_cons, if_neg hp, alookup, ih]

theorem alookup_map_subst_ne {α β : Type} [DecidableEq α]
    (l : List (α × β)) (k k' : α) (v : β) (hne : k' ≠ k) :
    alookup (l.map (fun p => if p.1 = k then (k, v) else p)) k' =
      alookup l k' := by
  induction l with
  | nil => rfl
  | cons p rest ih =>
    by_cases hp : p.1 = k
    · have hkk' : ¬ ((k, v).1 = k') := fun h => hne h.symm
      have hpk' : ¬ (p.1 = k') := by rw [hp]; exact fun h => hne h.symm
      simp only [List.map_cons, if_pos hp, alookup, if_neg hkk', if_neg hpk', ih]
    · simp only [List.map_cons, if_neg hp, alookup, ih]

theorem alookup_aset_self {α β : Type} [DecidableEq α]
    (l : List (α × β)) (k : α) (v : β) :
    alookup (aset l k v) k = some v := by
  unfold aset
  by_cases h : (alookup l k).isSome
  · rw [if_pos h, alookup_map_subst, if_pos h]
  · rw [if_neg h]
    have hnone : alookup l k = none := by
      cases hl : alookup l k with
      | none => rfl
      | some w => rw [hl] at h; simp at h
    rw [alookup_append_of_none _ hnone]
    simp [alookup]

theorem alookup_append_of_some {α β : Type} [DecidableEq α]
    {l1 : List (α × β)} (l2 : List (α × β)) {k : α} {w : β}
    (h : alookup l1 k = some w) : alookup (l1 ++ l2) k = some w := by
  induction l1 with
  | nil => simp [alookup] at h
  | cons p rest ih =>
    by_cases hp : p.1 = k
    · simp only [alookup, List.cons_append, if_pos hp] at h ⊢
      exact h
    · simp only [alookup, List.cons_append, if_neg hp] at h ⊢
      exact ih h

theorem alookup_aset_ne {α β : Type} [DecidableEq α]
    (l : List (α × β)) (k k' : α) (v : β) (hne : k' ≠ k) :
    alookup (aset l k v) k' = alookup l k' := by
  unfold aset
  by_cases h : (alookup l k).isSome
  · rw [if_pos h, alookup_map_subst_ne _ _ _ _ hne]
  · rw [if_neg h]
    cases hl : alookup l k' with
    | some w => rw [alookup_append_of_some _ hl]
    | none =>
      rw [alookup_append_of_none _ hl]
      simp only [alookup]
      rw [if_neg (show ¬ ((k, v).1 = k') from fun hh => hne hh.symm)]

theorem alookup_adel_ne {α β : Type} [DecidableEq α]
    (l : List (α × β)) (k k' : α) (hne : k' ≠ k) :
    alookup (adel l k) k' = alookup l k' := by
  induction l with
  | nil => rfl
  | cons p rest ih =>
    by_cases hp : p.1 = k
    · have hpk' : ¬ p.1 = k' := by rw [hp]; exact fun hh => hne hh.symm
      simp only [adel, if_pos hp, alookup, if_neg hpk', ih]
    · simp only [adel, if_neg hp, alookup, ih]

theorem specStep_other (ov m : List (String × String)) (spec : MetadataSpec)
    (k : String) (hne : k ≠ spec.key) :
    alookup (specStep ov m spec) k = alookup m k := by
  cases hov : alookup ov spec.key with
  | some v =>
    simp only [specStep, hov]
    rw [alookup_aset_ne _ _ _ _ hne]
    split
    · exact alookup_adel_ne _ _ _ hne
    · rfl
  | none =>
    simp only [specStep, hov]
    split
    · exact alookup_adel_ne _ _ _ hne
    · rfl

theorem specStep_self (ov m : List (String × String)) (spec : MetadataSpec)
    (v : String) (hov : alookup ov spec.key = some v) :
    alookup (specStep ov m spec) spec.key = some v := by
  simp only [specStep, hov]
  exact alookup_aset_self _ _ _

theorem specsFold_preserve (ov : List (String × String)) (k : String) :
    ∀ (specs : List MetadataSpec), k ∉ specs.map (fun sp => sp.key) →
    ∀ m, alookup (specs.foldl (specStep ov) m) k = alookup m k := by
  intro specs
  induction specs with
  | nil => intro _ m; rfl
  | cons sp rest ih =>
    intro hk m
    simp only [List.map_cons, List.mem_cons, not_or] at hk
    rw [List.foldl_cons, ih hk.2, specStep_other _ _ _ _ hk.1]

theorem specsFold_override (ov : List (String × String)) (k v : String)
    (hov : alookup ov k = some v) :
    ∀ (specs : List MetadataSpec) (m : List (String × String)),
      k ∈ specs.map (fun sp => sp.key) →
      alookup (specs.foldl (specStep ov) m) k = some v := by
  intro specs
  induction specs with
  | nil => intro m hk; simp at hk
  | cons sp rest ih =>
    intro m hk
    rw [List.foldl_cons]
    by_cases hr : k ∈ rest.map (fun sp => sp.key)
    · exact ih _ hr
    · have hksp : sp.key = k := by
        simp only [List.map_cons, List.mem_cons] at hk
        rcases hk with h | h
        · exact h.symm
        · exact absurd h hr
      rw [specsFold_preserve ov k rest hr]
      have hstep := specStep_self ov m sp v (by rw [hksp]; exact hov)
      rw [hksp] at hstep
      exact hstep

/-- Unfolding equation for `recurseF`. -/
theorem recurseF_succ (env : Env) (infos : List (U × BundleInfo))
    (fuel : Nat) (u : U) (s : St) :
    recurseF env infos (fuel + 1) u s =
      bodyStep env infos (recurseF env infos fuel) u s := rfl

/-- **C4** (confirmed).  For every needs-new node, caller-supplied metadata
overrides take precedence over every computed metadata value: for each
field declared in the bundle type's schema, generated fields are dropped
first (inside `specStep`) and the override is applied afterwards, so
whenever the override map binds a key that the schema declares, the final
metadata produced by the rewrite (`buildMeta`, covering the stripped
generated value, the synthesized `"{overrideName}-{oldName}"` name and the
`docker_image → request_docker_image` copy) binds that key to the override
value. -/
theorem metadata_override_precedence (env : Env) (u : U)
    (old_info : BundleInfo) (k v : String) (m : List (String × String))
    (hov : alookup env.metadata_override k = some v)
    (hk : k ∈ (env.specsOf old_info.bundle_type).map (fun sp => sp.key))
    (hbm : buildMeta env u old_info = .ok m) :
    alookup m k = some v := by
  simp only [buildMeta] at hbm
  split at hbm
  · exact absurd hbm (by simp)
  · rw [Except.ok.injEq] at hbm
    rw [← hbm]
    exact specsFold_override env.metadata_override k v hov _ _ hk

/-- Concrete instance of the C4 test: `metadata_override={"name": "X"}`
together with an output-name override yields final name `"X"`, not the
synthesized name. -/
def env4 : Env :=
  { old_inputs := [], old_output := some "O", new_inputs := [],
    new_output_name := some "out", worksheet_uuid := "ws", depth := 0,
    shadow := false, dry_run := false, metadata_override := [("name", "X")],
    skip_prelude := false, memoize := false, initInfos := [],
    store := fun _ => none, memoBundles := fun _ _ => [],
    specsOf := fun _ => [{ key := "name", generated := true }],
    hostWorksheets := fun _ => [], worksheetItems := fun _ => [] }

/-- The old bundle description of the C4 instance. -/
def info4 : BundleInfo :=
  { uuid := some "O", bundle_type := "run", command := some "c",
    metadata := [("name", "o")], dependencies := [], state_details := some "sd" }

/-- Witness for C4: on `env4`, rewriting `info4` (the designated output,
with output-name override "out" and `metadata_override={"name": "X"}`)
yields final name "X". -/
theorem metadata_override_precedence_witness :
    ∃ m, buildMeta env4 (some "O") info4 = .ok m ∧
      alookup m "name" = some "X" :=
  ⟨[("name", "X")], rfl,
    metadata_override_precedence env4 (some "O") info4 "name" "X"
      [("name", "X")] rfl (by decide) rfl⟩

/-- **C3** (confirmed).  For a node with a cached description that is not
already mapped (in particular not an explicit input), after its
dependencies have been resolved, `needsNew` is exactly
"(zero explicit inputs ∧ the node is the designated old output) ∨ some
dependency's original, pre-substitution parent id is in `downstream`":
when that condition fails, `recurse` returns the node's own old id, adds
only the identity mapping, and appends no entry to the plan; when it
holds, either an exception is raised (plan unchanged) or exactly one entry
for this node is appended to the plan. -/
theorem needsNew_characterization (env : Env) (infos : List (U × BundleInfo))
    (fuel : Nat) (u : U) (s : St) (old_info : BundleInfo)
    (new_deps : List Dependency) (s1 : St)
    (h1 : alookup s.old_to_new u = none)
    (h2 : alookup infos u = some old_info)
    (hd : depsStep (recurseF env infos fuel) old_info.dependencies s =
          some (.ok new_deps, s1)) :
    (¬ ((env.old_inputs.length = 0 ∧ u = env.old_output) ∨
        (∃ d ∈ old_info.dependencies, d.parent_uuid ∈ s1.downstream)) →
      recurseF env infos (fuel + 1) u s =
        some (.ok u, { s1 with old_to_new := aset s1.old_to_new u u })) ∧
    (((env.old_inputs.length = 0 ∧ u = env.old_output) ∨
        (∃ d ∈ old_info.dependencies, d.parent_uuid ∈ s1.downstream)) →
      (∃ e s2, recurseF env infos (fuel + 1) u s = some (.error e, s2) ∧
        s2.plan = s1.plan) ∨
      (∃ ni s2, recurseF env infos (fuel + 1) u s = some (.ok ni.uuid, s2) ∧
        s2.plan = s1.plan ++ [(old_info, ni)])) := by
  constructor
  · intro hno
    rw [recurseF_succ]
    simp only [bodyStep, h1, h2, hd]
    rw [if_neg hno]
  · intro hyes
    cases hsd : old_info.state_details with
    | none =>
      simp only [recurseF_succ, bodyStep, h1, h2, hd, hsd]
      rw [if_pos hyes]
      exact Or.inl ⟨_, _, rfl, rfl⟩
    | some sd =>
      cases hbm : buildMeta env u old_info with
      | error e =>
        simp only [recurseF_succ, bodyStep, h1, h2, hd, hsd, hbm]
        rw [if_pos hyes]
        exact Or.inl ⟨_, _, rfl, rfl⟩
      | ok nm =>
        simp only [recurseF_succ, bodyStep, h1, h2, hd, hsd, hbm]
        rw [if_pos hyes]
        by_cases hdry : env.dry_run = true
        · rw [if_pos hdry]
          exact Or.inr ⟨_, _, rfl, rfl⟩
        · rw [if_neg hdry]
          by_cases hmemo : env.memoize = true ∧
              env.memoBundles old_info.command
                (new_deps.map (fun d => (d.child_path, d.parent_uuid))) ≠ []
          · rw [if_pos hmemo]
            exact Or.inr ⟨_, _, rfl, rfl⟩
          · rw [if_neg hmemo]
            by_cases hbt : old_info.bundle_type ≠ "make" ∧
                old_info.bundle_type ≠ "run"
            · rw [if_pos hbt]
              exact Or.inl ⟨_, _, rfl, rfl⟩
            · rw [if_neg hbt]
              exact Or.inr ⟨_, _, rfl, rfl⟩

/-- The environment of the C3 witness: explicit input A↦A2 and designated
output O; the sibling node S depends only on the boundary node Q. -/
def env3 : Env :=
  { old_inputs := ["A"], old_output := some "O", new_inputs := ["A2"],
    new_output_name := none, worksheet_uuid := "ws", depth := 1,
    shadow := false, dry_run := false, metadata_override := [],
    skip_prelude := false, memoize := false, initInfos := [],
    store := fun _ => none, memoBundles := fun _ _ => [],
    specsOf := fun _ => [], hostWorksheets := fun _ => [],
    worksheetItems := fun _ => [] }

/-- The untouched sibling node of the C3 witness. -/
def infoS : BundleInfo :=
  { uuid := some "S", bundle_type := "run", command := some "c",
    metadata := [("name", "s")],
    dependencies := [{ parent_uuid := some "Q", parent_path := "",
                       child_uuid := some "S", child_path := "q" }],
    state_details := some "sd" }

/-- Witness for C3: the sibling S (depending only on Q, which is not
downstream of the inputs) reuses its own id and the plan stays empty. -/
theorem needsNew_characterization_witness :
    recurseF env3 [(some "S", infoS)] 4 (some "S") (seedSt env3) =
      some (.ok (some "S"),
        { seedSt env3 with
          old_to_new := aset (seedSt env3).old_to_new (some "S") (some "S") }) :=
  (needsNew_characterization env3 [(some "S", infoS)] 3 (some "S")
      (seedSt env3) infoS
      [{ parent_uuid := some "Q", parent_path := "",
         child_uuid := some "S", child_path := "q" }]
      (seedSt env3) rfl rfl rfl).1 (by decide)

/-- **C10** (confirmed).  A needs-new node whose cached description lacks
the `state_details` key makes the no-default `pop` raise `KeyError`
instead of treating the field as already absent. -/
theorem state_details_pop_keyerror (env : Env) (infos : List (U × BundleInfo))
    (fuel : Nat) (u : U) (s : St) (old_info : BundleInfo)
    (new_deps : List Dependency) (s1 : St)
    (h1 : alookup s.old_to_new u = none)
    (h2 : alookup infos u = some old_info)
    (hd : depsStep (recurseF env infos fuel) old_info.dependencies s =
          some (.ok new_deps, s1))
    (hneeds : (env.old_inputs.length = 0 ∧ u = env.old_output) ∨
        (∃ d ∈ old_info.dependencies, d.parent_uuid ∈ s1.downstream))
    (hsd : old_info.state_details = none) :
    recurseF env infos (fuel + 1) u s =
      some (.error (.keyError "state_details"), s1) := by
  rw [recurseF_succ]
  simp only [bodyStep, h1, h2, hd]
  rw [if_pos hneeds]
  simp only [hsd]

/-- The environment of the C10 witness: a lone designated output. -/
def env10 : Env :=
  { old_inputs := [], old_output := some "O", new_inputs := [],
    new_output_name := none, worksheet_uuid := "ws", depth := 0,
    shadow := false, dry_run := false, metadata_override := [],
    skip_prelude := false, memoize := false, initInfos := [],
    store := fun _ => none, memoBundles := fun _ _ => [],
    specsOf := fun _ => [], hostWorksheets := fun _ => [],
    worksheetItems := fun _ => [] }

/-- The C10 witness description: a needs-new node without `state_details`. -/
def info10 : BundleInfo :=
  { uuid := some "O", bundle_type := "run", command := some "c",
    metadata := [("name", "o")], dependencies := [], state_details := none }

/-- Witness for C10: mimicking the lone output O whose cached description
lacks `state_details` raises `KeyError "state_details"`. -/
theorem state_details_pop_keyerror_witness :
    recurseF env10 [(some "O", info10)] 1 (some "O") St.empty =
      some (.error (.keyError "state_details"), St.empty) :=
  state_details_pop_keyerror env10 [(some "O", info10)] 0 (some "O")
    St.empty info10 [] St.empty rfl rfl rfl (by decide) rfl

/-- **C5** (confirmed).  A needs-new node (with `state_details` present and
a successful metadata rewrite) raises the `UsageError` "not make or run"
exactly when it reaches the creation step — not dry-run, no memoization
match — with a bundle type that is neither `make` nor `run`; the error
state is exactly the post-dependency state `s1`, so every bundle created
earlier in the traversal stays recorded (committed) in
`s1.bundleCreates`; moreover (second conjunct) an error propagating out of
`recurse` aborts the remaining driver traversal with that same error, so
no plan is returned. -/
theorem dataset_usage_error (env : Env) (infos : List (U × BundleInfo))
    (fuel : Nat) (u : U) (s : St) (old_info : BundleInfo)
    (new_deps : List Dependency) (s1 : St) (sd : String)
    (nm : List (String × String))
    (h1 : alookup s.old_to_new u = none)
    (h2 : alookup infos u = some old_info)
    (hd : depsStep (recurseF env infos fuel) old_info.dependencies s =
          some (.ok new_deps, s1))
    (hneeds : (env.old_inputs.length = 0 ∧ u = env.old_output) ∨
        (∃ d ∈ old_info.dependencies, d.parent_uuid ∈ s1.downstream))
    (hsd : old_info.state_details = some sd)
    (hbm : buildMeta env u old_info = .ok nm) :
    ((recurseF env infos (fuel + 1) u s = some (.error (.usage u), s1)) ↔
      (env.dry_run = false ∧
       (env.memoize = true →
         env.memoBundles old_info.command
           (new_deps.map (fun d => (d.child_path, d.parent_uuid))) = []) ∧
       old_info.bundle_type ≠ "make" ∧ old_info.bundle_type ≠ "run")) ∧
    (∀ (e : MErr) (s2 : St) (us : List U) (s' : St),
      recurseF env infos fuel u s' = some (.error e, s2) →
      runAll env infos fuel (u :: us) s' = some (.error e, s2)) := by
  constructor
  · simp only [recurseF_succ, bodyStep, h1, h2, hd, hsd, hbm]
    rw [if_pos hneeds]
    by_cases hdry : env.dry_run = true
    · rw [if_pos hdry]
      constructor
      · intro h
        exact absurd h (by simp [finishNode])
      · intro h
        rw [h.1] at hdry
        exact absurd hdry (by simp)
    · rw [if_neg hdry]
      by_cases hmemo : env.memoize = true ∧
          env.memoBundles old_info.command
            (new_deps.map (fun d => (d.child_path, d.parent_uuid))) ≠ []
      · rw [if_pos hmemo]
        constructor
        · intro h
          exact absurd h (by simp [finishNode])
        · intro h
          exact absurd (h.2.1 hmemo.1) hmemo.2
      · rw [if_neg hmemo]
        by_cases hbt : old_info.bundle_type ≠ "make" ∧
            old_info.bundle_type ≠ "run"
        · rw [if_pos hbt]
          refine ⟨fun _ => ⟨?_, ?_, hbt.1, hbt.2⟩, fun _ => rfl⟩
          · cases hv : env.dry_run with
            | false => rfl
            | true => exact absurd hv hdry
          · intro hm
            by_contra hne
            exact hmemo ⟨hm, hne⟩
        · rw [if_neg hbt]
          constructor
          · intro h
            exact absurd h (by simp [finishNode])
          · intro h
            exact absurd ⟨h.2.2.1, h.2.2.2⟩ hbt
  · intro e s2 us s' h
    simp only [runAll, h]

/-- The environment of the C5 witness: a lone `dataset`-typed output. -/
def env5 : Env :=
  { old_inputs := [], old_output := some "D", new_inputs := [],
    new_output_name := none, worksheet_uuid := "ws", depth := 0,
    shadow := false, dry_run := false, metadata_override := [],
    skip_prelude := false, memoize := false, initInfos := [],
    store := fun _ => none, memoBundles := fun _ _ => [],
    specsOf := fun _ => [], hostWorksheets := fun _ => [],
    worksheetItems := fun _ => [] }

/-- The C5 witness description: a dataset bundle reaching creation. -/
def info5 : BundleInfo :=
  { uuid := some "D", bundle_type := "dataset", command := none,
    metadata := [("name", "d")], dependencies := [], state_details := some "sd" }

/-- Witness for C5: mimicking the lone `dataset` output D raises the
"not make or run" usage error, with the pre-error state intact. -/
theorem dataset_usage_error_witness :
    recurseF env5 [(some "D", info5)] 1 (some "D") St.empty =
      some (.error (.usage (some "D")), St.empty) :=
  ((dataset_usage_error env5 [(some "D", info5)] 0 (some "D") St.empty info5
      [] St.empty "sd" [("name", "d")] rfl rfl rfl (by decide) rfl rfl).1).mpr
    ⟨rfl, fun _ => rfl, by decide, by decide⟩

/-- **C7** (corrected, amended form).  For an id with no cached description
(and no existing mapping), `recurse` returns the same id as a pure
pass-through: the state — in particular the substitution map — is left
completely unchanged (no identity entry is recorded), no error is raised
and the store is not touched; and (second conjunct) with `depth = 0` the
ancestor collection performs zero rounds, so the cache and the running
result (the seed ids) are returned untouched. -/
theorem boundary_passthrough (env : Env) (infos : List (U × BundleInfo))
    (fuel : Nat) (u : U) (s : St)
    (h1 : alookup s.old_to_new u = none)
    (h2 : alookup infos u = none) :
    (recurseF env infos (fuel + 1) u s = some (.ok u, s)) ∧
    (∀ (env' : Env) (frontier visited : List U)
       (infos' : List (U × BundleInfo)) (result : List U),
      collectRounds env' 0 frontier visited infos' result =
        .ok (result, infos')) := by
  constructor
  · rw [recurseF_succ]
    simp only [bodyStep, h1, h2]
  · intro env' frontier visited infos' result
    rfl

/-- The environment of the C7 counterexample and witness: a designated
output O depending on P, collected with `depth = 0` so that P stays
outside the cache. -/
def env7 : Env :=
  { old_inputs := [], old_output := some "O", new_inputs := [],
    new_output_name := none, worksheet_uuid := "ws", depth := 0,
    shadow := true, dry_run := false, metadata_override := [],
    skip_prelude := false, memoize := false,
    initInfos := [{ uuid := some "O", bundle_type := "run",
                    command := some "c", metadata := [("name", "o")],
                    dependencies := [{ parent_uuid := some "P",
                                       parent_path := "",
                                       child_uuid := some "O",
                                       child_path := "p" }],
                    state_details := some "sd" }],
    store := fun _ => none, memoBundles := fun _ _ => [],
    specsOf := fun _ => [], hostWorksheets := fun _ => [],
    worksheetItems := fun _ => [] }

/-- Counterexample for C7 as stated: replaying `env7` leaves the boundary
id P entirely out of the substitution map — the claimed identity entry
`P ↦ P` is never recorded (the code returns before the caching line). -/
theorem boundary_passthrough_cex :
    ∃ plan st ps, mimicF env7 9 = some (.ok plan, st, ps) ∧
      alookup st.old_to_new (some "P") = none ∧
      st.old_to_new = [(some "O", some (gen 0))] :=
  ⟨_, _, _, rfl, rfl, rfl⟩

/-- Witness for the amended C7: a boundary id passes through with the
state unchanged. -/
theorem boundary_passthrough_witness :
    recurseF env7 [] 3 (some "X") St.empty = some (.ok (some "X"), St.empty) :=
  (boundary_passthrough env7 [] 2 (some "X") St.empty rfl rfl).1

/-- `depsStep` cannot run out of fuel if none of the recursive calls on
the listed parents can. -/
theorem depsStep_total (rec : U → St → Option (Except MErr U × St))
    (l : List Dependency)
    (h : ∀ d ∈ l, ∀ s', rec d.parent_uuid s' ≠ none) :
    ∀ s', depsStep rec l s' ≠ none := by
  induction l with
  | nil =>
    intro s' hc
    exact Option.noConfusion hc
  | cons d ds ih =>
    intro s' hc
    cases hr : rec d.parent_uuid s' with
    | none => exact h d (by simp) s' hr
    | some r =>
      obtain ⟨er, s1⟩ := r
      cases er with
      | error e => simp [depsStep, hr] at hc
      | ok p =>
        cases hds : depsStep rec ds s1 with
        | none => exact ih (fun d' hd' s'' => h d' (by simp [hd']) s'') s1 hds
        | some r2 =>
          obtain ⟨er2, s2⟩ := r2
          cases er2 with
          | error e => simp [depsStep, hr, hds] at hc
          | ok rest => simp [depsStep, hr, hds] at hc

/-- **C2** (corrected, amended form).  The substitution recursion is not
bounded by `depth`; what holds is: it terminates (never exhausts any
sufficiently large fuel) whenever the cached dependency graph admits a
decreasing rank — in particular on every acyclic cache — while the
ancestor collection is bounded by `depth` by construction (it runs
exactly `depth` rounds).  On a cyclic cache the recursion diverges, see
the counterexample. -/
theorem substitute_terminates_on_ranked (env : Env)
    (infos : List (U × BundleInfo)) (rank : U → Nat)
    (hrank : ∀ u info, alookup infos u = some info →
      ∀ d ∈ info.dependencies, rank d.parent_uuid < rank u) :
    ∀ (fuel : Nat) (u : U) (s : St), rank u < fuel →
      recurseF env infos fuel u s ≠ none := by
  intro fuel
  induction fuel with
  | zero => intro u s h; omega
  | succ n ih =>
    intro u s hlt hc
    cases hm : alookup s.old_to_new u with
    | some v =>
      rw [recurseF_succ] at hc
      simp [bodyStep, hm] at hc
    | none =>
      cases hi : alookup infos u with
      | none =>
        rw [recurseF_succ] at hc
        simp [bodyStep, hm, hi] at hc
      | some old_info =>
        cases hds : depsStep (recurseF env infos n) old_info.dependencies s with
        | none =>
          refine depsStep_total _ _ ?_ s hds
          intro d hd s'
          have hr := hrank u old_info hi d hd
          exact ih d.parent_uuid s' (by omega)
        | some r =>
          obtain ⟨er, s1⟩ := r
          cases er with
          | error e =>
            rw [recurseF_succ] at hc
            simp [bodyStep, hm, hi, hds] at hc
          | ok new_deps =>
            rw [recurseF_succ] at hc
            simp only [bodyStep, hm, hi, hds] at hc
            by_cases hny : ((env.old_inputs.length = 0 ∧ u = env.old_output) ∨
                (∃ d ∈ old_info.dependencies, d.parent_uuid ∈ s1.downstream))
            · rw [if_pos hny] at hc
              cases hsd : old_info.state_details with
              | none => simp [hsd] at hc
              | some sd =>
                cases hbm : buildMeta env u old_info with
                | error e => simp [hsd, hbm] at hc
                | ok nm =>
                  simp only [hsd, hbm] at hc
                  split at hc
                  · simp [finishNode] at hc
                  · split at hc
                    · simp [finishNode] at hc
                    · split at hc
                      · simp at hc
                      · simp [finishNode] at hc
            · rw [if_neg hny] at hc
              simp at hc

/-- Acyclic witness cache for C2: A depends on B, B on nothing. -/
def infoWA : BundleInfo :=
  { uuid := some "A", bundle_type := "run", command := some "ca",
    metadata := [("name", "a")],
    dependencies := [{ parent_uuid := some "B", parent_path := "",
                       child_uuid := some "A", child_path := "b" }],
    state_details := some "sd" }

/-- The dependency-free node of the C2 witness cache. -/
def infoWB : BundleInfo :=
  { uuid := some "B", bundle_type := "run", command := some "cb",
    metadata := [("name", "b")], dependencies := [],
    state_details := some "sd" }

/-- An environment for the C2 witness (its collaborator fields are inert). -/
def envW : Env :=
  { old_inputs := [], old_output := some "A", new_inputs := [],
    new_output_name := none, worksheet_uuid := "ws", depth := 1,
    shadow := false, dry_run := true, metadata_override := [],
    skip_prelude := false, memoize := false, initInfos := [infoWA],
    store := fun _ => none, memoBundles := fun _ _ => [],
    specsOf := fun _ => [], hostWorksheets := fun _ => [],
    worksheetItems := fun _ => [] }

/-- The decreasing rank of the C2 witness cache. -/
def rankW : U → Nat := fun u => if u = some "A" then 1 else 0

/-- Witness for the amended C2: on the acyclic two-node cache the
substitution recursion does not exhaust fuel 2 at A. -/
theorem substitute_terminates_on_ranked_witness :
    recurseF envW [(some "A", infoWA), (some "B", infoWB)] 2
      (some "A") St.empty ≠ none :=
  substitute_terminates_on_ranked envW
    [(some "A", infoWA), (some "B", infoWB)] rankW
    (by
      intro u info h d hd
      by_cases h1 : (some "A" : U) = u
      · rw [show alookup [(some "A", infoWA), (some "B", infoWB)] u =
             (if (some "A" : U) = u then some infoWA else
              if (some "B" : U) = u then some infoWB else none) from rfl,
           if_pos h1] at h
        cases h
        subst h1
        rcases List.mem_singleton.mp hd with rfl
        decide
      · rw [show alookup [(some "A", infoWA), (some "B", infoWB)] u =
             (if (some "A" : U) = u then some infoWA else
              if (some "B" : U) = u then some infoWB else none) from rfl,
           if_neg h1] at h
        by_cases h2 : (some "B" : U) = u
        · rw [if_pos h2] at h
          cases h
          exact absurd hd (List.not_mem_nil d)
        · rw [if_neg h2] at h
          exact Option.noConfusion h)
    2 (some "A") St.empty (by decide)

/-- One node of the cyclic cache of the C2 counterexample: A's parent is B. -/
def infoA2 : BundleInfo :=
  { uuid := some "A", bundle_type := "run", command := some "ca",
    metadata := [("name", "a")],
    dependencies := [{ parent_uuid := some "B", parent_path := "",
                       child_uuid := some "A", child_path := "b" }],
    state_details := some "sd" }

/-- The other node of the cyclic cache: B's parent is A. -/
def infoB2 : BundleInfo :=
  { uuid := some "B", bundle_type := "run", command := some "cb",
    metadata := [("name", "b")],
    dependencies := [{ parent_uuid := some "A", parent_path := "",
                       child_uuid := some "B", child_path := "a" }],
    state_details := some "sd" }

/-- An environment whose store serves the two-node cycle A ↔ B; with
`depth = 2` the ancestor collection caches both nodes. -/
def envC : Env :=
  { old_inputs := [], old_output := some "A", new_inputs := [],
    new_output_name := none, worksheet_uuid := "ws", depth := 2,
    shadow := false, dry_run := false, metadata_override := [],
    skip_prelude := false, memoize := false, initInfos := [infoA2],
    store := fun u => if u = some "A" then some infoA2 else
               if u = some "B" then some infoB2 else none,
    memoBundles := fun _ _ => [], specsOf := fun _ => [],
    hostWorksheets := fun _ => [], worksheetItems := fun _ => [] }

/-- The cache the collection phase produces for `envC`. -/
def infosC : List (U × BundleInfo) := [(some "A", infoA2), (some "B", infoB2)]

/-- On the cyclic cache the substitution recursion exhausts every fuel:
`recurse` only memoizes a node after its dependencies are resolved, so the
A → B → A … recursion never bottoms out. -/
theorem cyc_diverge : ∀ n,
    recurseF envC infosC n (some "A") St.empty = none ∧
    recurseF envC infosC n (some "B") St.empty = none := by
  intro n
  induction n with
  | zero => exact ⟨rfl, rfl⟩
  | succ n ih =>
    constructor
    · rw [recurseF_succ]
      simp only [bodyStep,
        show alookup St.empty.old_to_new (some "A") = (none : Option U)
          from rfl,
        show alookup infosC (some "A") = some infoA2 from rfl,
        show infoA2.dependencies =
            [{ parent_uuid := some "B", parent_path := "",
               child_uuid := some "A", child_path := "b" }] from rfl,
        depsStep]
      rw [ih.2]
    · rw [recurseF_succ]
      simp only [bodyStep,
        show alookup St.empty.old_to_new (some "B") = (none : Option U)
          from rfl,
        show alookup infosC (some "B") = some infoB2 from rfl,
        show infoB2.dependencies =
            [{ parent_uuid := some "A", parent_path := "",
               child_uuid := some "B", child_path := "a" }] from rfl,
        depsStep]
      rw [ih.1]

/-- On the cyclic store, the whole replay exhausts every fuel. -/
theorem mimic_cyclic_none : ∀ fuel, mimicF envC fuel = none := by
  intro fuel
  have h1 := (cyc_diverge fuel).1
  simp only [mimicF,
    show collectRounds envC envC.depth
        ((mkInfos envC.initInfos).map (fun p => p.1)) []
        (mkInfos envC.initInfos)
        ((mkInfos envC.initInfos).map (fun p => p.1)) =
      Except.ok ([some "B", some "A"], infosC) from rfl,
    show truthy envC.old_output = true from rfl,
    show envC.old_output = some "A" from rfl,
    show truthy (some "A") = true from rfl,
    show seedSt envC = St.empty from rfl,
    h1]
  rw [if_pos trivial]

/-- Counterexample for C2 as stated: with the cyclic store of `envC`
(cycle A ↔ B, reachable with `depth = 2`), the replay traversal does not
terminate — the substitution recursion runs out of every fuel, i.e. the
Python recursion never returns. -/
theorem replay_depth_bound_cex :
    ¬ ∃ (fuel : Nat)
        (r : Except MErr (List (BundleInfo × BundleInfo)) × St × PlaceSt),
      mimicF envC fuel = some r := by
  rintro ⟨fuel, r, h⟩
  rw [mimic_cyclic_none fuel] at h
  exact Option.noConfusion h

/-- With an empty frontier every collection round is a no-op. -/
theorem collectRounds_nil_frontier (env : Env) :
    ∀ (d : Nat) (visited : List U) (infos : List (U × BundleInfo))
      (result : List U),
    collectRounds env d [] visited infos result = .ok (result, infos) := by
  intro d
  induction d with
  | zero => intro _ _ _; rfl
  | succ d ih => intro visited infos result; exact ih visited infos result

/-- **C9** (confirmed).  When `old_output` is `None` and `old_inputs` is
empty while neither dry-run nor shadow is requested (and the initial fetch
for the empty spec list returns no bundles), `mimic_bundles` reaches the
placement phase with `anchor_uuid` never assigned and fails with the
unbound-variable error instead of returning the (empty) plan: every
non-dry-run, non-shadow invocation needs one of `old_output`/`old_inputs`. -/
theorem missing_anchor_unbound_error (env : Env) (fuel : Nat)
    (h1 : env.old_output = none) (h2 : env.old_inputs = [])
    (h3 : env.dry_run = false) (h4 : env.shadow = false)
    (h5 : env.initInfos = []) :
    mimicF env fuel = some (.error (.unboundLocal "anchor_uuid"),
      seedSt env, PlaceSt.empty) := by
  simp only [mimicF, h5,
    show mkInfos [] = ([] : List (U × BundleInfo)) from rfl, List.map_nil]
  rw [collectRounds_nil_frontier]
  simp only [h1, show truthy none = false from rfl]
  rw [if_neg (by simp)]
  simp only [runAll]
  rw [if_pos (And.intro h3 h4)]
  simp only [placeAll, h1, show truthy none = false from rfl, h2]
  rw [if_neg (by simp)]

/-- The environment of the C9 witness: a non-dry-run, non-shadow call with
neither output nor inputs. -/
def env9 : Env :=
  { old_inputs := [], old_output := none, new_inputs := [],
    new_output_name := none, worksheet_uuid := "ws", depth := 3,
    shadow := false, dry_run := false, metadata_override := [],
    skip_prelude := false, memoize := false, initInfos := [],
    store := fun _ => none, memoBundles := fun _ _ => [],
    specsOf := fun _ => [], hostWorksheets := fun _ => [],
    worksheetItems := fun _ => [] }

/-- Witness for C9. -/
theorem missing_anchor_unbound_error_witness :
    mimicF env9 3 = some (.error (.unboundLocal "anchor_uuid"),
      seedSt env9, PlaceSt.empty) :=
  missing_anchor_unbound_error env9 3 rfl rfl rfl rfl rfl

/-- An environment for the C8 placement scenario (only `worksheet_uuid`
and `skip_prelude` matter to the scan). -/
def env8 : Env :=
  { old_inputs := [], old_output := none, new_inputs := [],
    new_output_name := none, worksheet_uuid := "target", depth := 0,
    shadow := false, dry_run := false, metadata_override := [],
    skip_prelude := false, memoize := false, initInfos := [],
    store := fun _ => none, memoBundles := fun _ _ => [],
    specsOf := fun _ => [], hostWorksheets := fun _ => [],
    worksheetItems := fun _ => [] }

/-- The non-empty markup item of the C8 scenario. -/
def introItem : WItem := { type := .markup, bundleId := "", value := "intro" }

/-- The substituted bundle item of the C8 scenario. -/
def itemA : WItem := { type := .bundle, bundleId := "A", value := "" }

/-- The empty markup item of the C8 scenario. -/
def emptyMarkup : WItem := { type := .markup, bundleId := "", value := "" }

/-- The untouched bundle item of the C8 scenario. -/
def itemB : WItem := { type := .bundle, bundleId := "B", value := "" }

/-- **C8** (confirmed).  During the host-worksheet scan with
`skip_prelude = false`: (i) a bundle item whose old id maps to a new id in
the created set flushes every buffered prelude item as a retargeted copy,
followed by a new bundle-reference item for the new id, marks the new id
placed and clears the buffer; (ii) any item that is neither a non-empty
markup nor a directive and does not trigger a placement clears the buffer
without replicating anything; (iii) on the worksheet
[markup "intro", bundle A, markup "", bundle B] with A ↦ A2 created and B
unsubstituted, exactly a copy of markup "intro" followed by the new
bundle item for A2 is created, and nothing near B. -/
theorem prelude_replication (env : Env) (otn : List (U × U))
    (created : List U) :
    (∀ (item : WItem) (rest pbuf : List WItem) (ps : PlaceSt) (nb : U),
      item.type = .bundle →
      alookup otn (some item.bundleId) = some nb →
      nb ∈ created →
      env.skip_prelude = false →
      scanItems env otn created (item :: rest) pbuf ps =
        scanItems env otn created rest []
          { itemCreates := (ps.itemCreates ++
              pbuf.map (fun p => WICreate.preludeCopy p env.worksheet_uuid)) ++
              [WICreate.bundleRef nb env.worksheet_uuid],
            added := sadd ps.added nb }) ∧
    (∀ (item : WItem) (rest pbuf : List WItem) (ps : PlaceSt),
      ¬ ((item.type = .markup ∧ item.value ≠ "") ∨ item.type = .directive) →
      (item.type = .bundle →
        ∀ nb, alookup otn (some item.bundleId) = some nb → nb ∉ created) →
      scanItems env otn created (item :: rest) pbuf ps =
        scanItems env otn created rest [] ps) ∧
    (scanItems env8 [(some "A", some "A2")] [some "A2"]
        [introItem, itemA, emptyMarkup, itemB] [] PlaceSt.empty =
      { itemCreates := [WICreate.preludeCopy introItem "target",
                        WICreate.bundleRef (some "A2") "target"],
        added := [some "A2"] }) := by
  refine ⟨?_, ?_, ?_⟩
  · intro item rest pbuf ps nb hty hlk hcr hskip
    simp only [scanItems, hty, hlk, if_pos hcr]
    simp [hskip]
  · intro item rest pbuf ps hnp hnb
    by_cases hty : item.type = .bundle
    · cases hlk : alookup otn (some item.bundleId) with
      | none =>
        simp only [scanItems, hty, hlk]
        simp
      | some nb =>
        simp only [scanItems, hty, hlk, if_neg (hnb hty nb hlk)]
        simp
    · simp only [scanItems]
      rw [if_neg hty, if_neg hnp]
  · rfl

/-- Witness for C8: the eligible-bundle step of the theorem applied to the
concrete scenario (buffer [markup "intro"], bundle A ↦ A2 created). -/
theorem prelude_replication_witness :
    scanItems env8 [(some "A", some "A2")] [some "A2"]
        [itemA, emptyMarkup, itemB] [introItem] PlaceSt.empty =
      scanItems env8 [(some "A", some "A2")] [some "A2"]
        [emptyMarkup, itemB] []
        { itemCreates := (PlaceSt.empty.itemCreates ++
            [introItem].map (fun p => WICreate.preludeCopy p env8.worksheet_uuid)) ++
            [WICreate.bundleRef (some "A2") env8.worksheet_uuid],
          added := sadd PlaceSt.empty.added (some "A2") } :=
  (prelude_replication env8 [(some "A", some "A2")] [some "A2"]).1
    itemA [emptyMarkup, itemB] [introItem] PlaceSt.empty (some "A2")
    rfl rfl (by decide) rfl

theorem mem_sadd {α : Type} [DecidableEq α] (l : List α) (y x : α) :
    x ∈ sadd l y ↔ x ∈ l ∨ x = y := by
  unfold sadd
  split
  · rename_i hy
    constructor
    · exact Or.inl
    · rintro (h | rfl)
      · exact h
      · exact hy
  · simp [List.mem_append]

/-- The invariant the C1 correction establishes: the created set contains
exactly the new-description ids of the plan entries. -/
def CreatedMatchesPlan (s : St) : Prop :=
  ∀ x, x ∈ s.created_uuids ↔ x ∈ s.plan.map (fun e => e.2.uuid)

theorem finishNode_createdPlan {u : U} {old_info ni : BundleInfo} {s : St}
    {r : Except MErr U} {s' : St}
    (h : finishNode u old_info ni s = some (r, s'))
    (hs : CreatedMatchesPlan s) : CreatedMatchesPlan s' := by
  simp only [finishNode, Option.some.injEq, Prod.mk.injEq] at h
  rw [← h.2]
  intro x
  rw [mem_sadd]
  simp only [List.map_append, List.mem_append, List.map_cons, List.map_nil,
    List.mem_singleton]
  rw [hs x]

theorem recurseF_createdPlan (env : Env) (infos : List (U × BundleInfo)) :
    ∀ (fuel : Nat) (u : U) (s : St) (r : Except MErr U) (s' : St),
      recurseF env infos fuel u s = some (r, s') →
      CreatedMatchesPlan s → CreatedMatchesPlan s' := by
  intro fuel
  induction fuel with
  | zero =>
    intro u s r s' h
    exact absurd h (by simp [recurseF])
  | succ n ih =>
    have hdep : ∀ (l : List Dependency) (s : St)
        (r : Except MErr (List Dependency)) (s' : St),
        depsStep (recurseF env infos n) l s = some (r, s') →
        CreatedMatchesPlan s → CreatedMatchesPlan s' := by
      intro l
      induction l with
      | nil =>
        intro s r s' h hs
        simp only [depsStep, Option.some.injEq, Prod.mk.injEq] at h
        rw [← h.2]
        exact hs
      | cons d ds ihl =>
        intro s r s' h hs
        cases hr : recurseF env infos n d.parent_uuid s with
        | none => simp [depsStep, hr] at h
        | some rr =>
          obtain ⟨er, s1⟩ := rr
          have hs1 := ih d.parent_uuid s er s1 hr hs
          cases er with
          | error e =>
            simp only [depsStep, hr, Option.some.injEq, Prod.mk.injEq] at h
            rw [← h.2]
            exact hs1
          | ok p =>
            cases hds : depsStep (recurseF env infos n) ds s1 with
            | none => simp [depsStep, hr, hds] at h
            | some rr2 =>
              obtain ⟨er2, s2⟩ := rr2
              have hs2 := ihl s1 er2 s2 hds hs1
              cases er2 with
              | error e =>
                simp only [depsStep, hr, hds, Option.some.injEq,
                  Prod.mk.injEq] at h
                rw [← h.2]
                exact hs2
              | ok rest =>
                simp only [depsStep, hr, hds, Option.some.injEq,
                  Prod.mk.injEq] at h
                rw [← h.2]
                exact hs2
    intro u s r s' h hs
    cases hm : alookup s.old_to_new u with
    | some v =>
      rw [recurseF_succ] at h
      simp only [bodyStep, hm, Option.some.injEq, Prod.mk.injEq] at h
      rw [← h.2]
      exact hs
    | none =>
      cases hi : alookup infos u with
      | none =>
        rw [recurseF_succ] at h
        simp only [bodyStep, hm, hi, Option.some.injEq, Prod.mk.injEq] at h
        rw [← h.2]
        exact hs
      | some old_info =>
        cases hds : depsStep (recurseF env infos n) old_info.dependencies s with
        | none =>
          rw [recurseF_succ] at h
          simp [bodyStep, hm, hi, hds] at h
        | some rr =>
          obtain ⟨er, s1⟩ := rr
          have hs1 := hdep old_info.dependencies s er s1 hds hs
          cases er with
          | error e =>
            rw [recurseF_succ] at h
            simp only [bodyStep, hm, hi, hds, Option.some.injEq,
              Prod.mk.injEq] at h
            rw [← h.2]
            exact hs1
          | ok new_deps =>
            rw [recurseF_succ] at h
            simp only [bodyStep, hm, hi, hds] at h
            by_cases hny : ((env.old_inputs.length = 0 ∧ u = env.old_output) ∨
                (∃ d ∈ old_info.dependencies, d.parent_uuid ∈ s1.downstream))
            · rw [if_pos hny] at h
              cases hsd : old_info.state_details with
              | none =>
                simp only [hsd, Option.some.injEq, Prod.mk.injEq] at h
                rw [← h.2]
                exact hs1
              | some sd =>
                cases hbm : buildMeta env u old_info with
                | error e =>
                  simp only [hsd, hbm, Option.some.injEq, Prod.mk.injEq] at h
                  rw [← h.2]
                  exact hs1
                | ok nm =>
                  simp only [hsd, hbm] at h
                  split at h
                  · exact finishNode_createdPlan h hs1
                  · split at h
                    · exact finishNode_createdPlan h hs1
                    · split at h
                      · simp only [Option.some.injEq, Prod.mk.injEq] at h
                        rw [← h.2]
                        exact hs1
                      · exact finishNode_createdPlan h hs1
            · rw [if_neg hny] at h
              simp only [Option.some.injEq, Prod.mk.injEq] at h
              rw [← h.2]
              exact hs1

theorem seedSt_createdPlan (env : Env) : CreatedMatchesPlan (seedSt env) := by
  unfold seedSt
  have hgen : ∀ (l : List (String × String)) (st : St),
      CreatedMatchesPlan st →
      CreatedMatchesPlan (l.foldl (fun st p => { st with
        old_to_new := aset st.old_to_new (some p.1) (some p.2),
        downstream := sadd st.downstream (some p.1) }) st) := by
    intro l
    induction l with
    | nil => intro st hst; exact hst
    | cons p rest ihl =>
      intro st hst
      exact ihl _ (by exact hst)
  exact hgen _ St.empty (by intro x; simp [St.empty])

theorem runAll_createdPlan (env : Env) (infos : List (U × BundleInfo))
    (fuel : Nat) :
    ∀ (us : List U) (s : St) (r : Except MErr Unit) (s' : St),
      runAll env infos fuel us s = some (r, s') →
      CreatedMatchesPlan s → CreatedMatchesPlan s' := by
  intro us
  induction us with
  | nil =>
    intro s r s' h hs
    simp only [runAll, Option.some.injEq, Prod.mk.injEq] at h
    rw [← h.2]
    exact hs
  | cons u us ihl =>
    intro s r s' h hs
    cases hr : recurseF env infos fuel u s with
    | none => simp [runAll, hr] at h
    | some rr =>
      obtain ⟨er, s1⟩ := rr
      have hs1 := recurseF_createdPlan env infos fuel u s er s1 hr hs
      cases er with
      | error e =>
        simp only [runAll, hr, Option.some.injEq, Prod.mk.injEq] at h
        rw [← h.2]
        exact hs1
      | ok v =>
        refine ihl s1 r s' ?_ hs1
        simpa [runAll, hr] using h

/-- Bundle-reference items produced by the host-worksheet scan always
point at ids of the given created set (unless already present before the
scan). -/
theorem scanItems_gating (env : Env) (otn : List (U × U)) (created : List U) :
    ∀ (items pbuf : List WItem) (ps : PlaceSt) (nb : U) (ws : String),
      WICreate.bundleRef nb ws ∈
        (scanItems env otn created items pbuf ps).itemCreates →
      WICreate.bundleRef nb ws ∈ ps.itemCreates ∨ nb ∈ created := by
  intro items
  induction items with
  | nil => intro pbuf ps nb ws h; exact Or.inl h
  | cons item rest ih =>
    intro pbuf ps nb ws h
    simp only [scanItems] at h
    rcases ih _ _ _ _ h with hin | hcr
    · by_cases hty : item.type = .bundle
      · cases hlk : alookup otn (some item.bundleId) with
        | none =>
          simp only [hty, hlk] at hin
          exact Or.inl hin
        | some nb' =>
          simp only [hty, hlk] at hin
          by_cases hmem : nb' ∈ created
          · rw [if_pos hmem] at hin
            by_cases hskip : env.skip_prelude = true
            · rw [if_pos hskip] at hin
              simp at hin
              rcases hin with hin | ⟨rfl, rfl⟩
              · exact Or.inl hin
              · exact Or.inr hmem
            · rw [if_neg hskip] at hin
              simp at hin
              rcases hin with hin | ⟨rfl, rfl⟩
              · exact Or.inl hin
              · exact Or.inr hmem
          · rw [if_neg hmem] at hin
            exact Or.inl hin
      · rw [if_neg hty] at hin
        exact Or.inl hin
    · exact Or.inr hcr

/-- **C1** (corrected, amended form).  The created set contains exactly
the new-description ids of the plan entries: every needs-new node's final
new id is added — including a memo-reused bundle's id and, under dry-run,
the unset (`None`) placeholder — so membership in `created_uuids`
coincides with being the id of some plan entry's new description; and
during the host-worksheet scan, new bundle-reference items are created
only for ids of the created set. -/
theorem created_set_matches_plan (env : Env) (fuel : Nat)
    (r : Except MErr (List (BundleInfo × BundleInfo))) (s : St) (ps : PlaceSt)
    (h : mimicF env fuel = some (r, s, ps)) :
    (∀ x, x ∈ s.created_uuids ↔ x ∈ s.plan.map (fun e => e.2.uuid)) ∧
    (∀ (otn : List (U × U)) (created : List U) (items pbuf : List WItem)
       (ps0 : PlaceSt) (nb : U) (ws : String),
      WICreate.bundleRef nb ws ∈
        (scanItems env otn created items pbuf ps0).itemCreates →
      WICreate.bundleRef nb ws ∈ ps0.itemCreates ∨ nb ∈ created) := by
  refine ⟨?_, fun otn created items pbuf ps0 nb ws hmem =>
    scanItems_gating env otn created items pbuf ps0 nb ws hmem⟩
  simp only [mimicF] at h
  cases hcol : collectRounds env env.depth
      ((mkInfos env.initInfos).map (fun p => p.1)) []
      (mkInfos env.initInfos)
      ((mkInfos env.initInfos).map (fun p => p.1)) with
  | error e =>
    simp only [hcol, Option.some.injEq, Prod.mk.injEq] at h
    rw [← h.2.1]
    exact seedSt_createdPlan env
  | ok pr =>
    obtain ⟨all, infos'⟩ := pr
    simp only [hcol] at h
    by_cases htr : truthy env.old_output = true
    · rw [if_pos htr] at h
      cases hrec : recurseF env infos' fuel env.old_output (seedSt env) with
      | none => simp [hrec] at h
      | some rr =>
        obtain ⟨er, s1⟩ := rr
        have hs1 := recurseF_createdPlan env infos' fuel env.old_output
          (seedSt env) er s1 hrec (seedSt_createdPlan env)
        cases er with
        | error e =>
          simp only [hrec, Option.some.injEq, Prod.mk.injEq] at h
          rw [← h.2.1]
          exact hs1
        | ok v =>
          simp only [hrec] at h
          split at h
          · cases hpl : placeAll env s1 with
            | error e =>
              simp only [hpl, Option.some.injEq, Prod.mk.injEq] at h
              rw [← h.2.1]
              exact hs1
            | ok pps =>
              simp only [hpl, Option.some.injEq, Prod.mk.injEq] at h
              rw [← h.2.1]
              exact hs1
          · simp only [Option.some.injEq, Prod.mk.injEq] at h
            rw [← h.2.1]
            exact hs1
    · rw [if_neg htr] at h
      cases hrun : runAll env infos' fuel all (seedSt env) with
      | none => simp [hrun] at h
      | some rr =>
        obtain ⟨er, s1⟩ := rr
        have hs1 := runAll_createdPlan env infos' fuel all (seedSt env)
          er s1 hrun (seedSt_createdPlan env)
        cases er with
        | error e =>
          simp only [hrun, Option.some.injEq, Prod.mk.injEq] at h
          rw [← h.2.1]
          exact hs1
        | ok v =>
          simp only [hrun] at h
          split at h
          · cases hpl : placeAll env s1 with
            | error e =>
              simp only [hpl, Option.some.injEq, Prod.mk.injEq] at h
              rw [← h.2.1]
              exact hs1
            | ok pps =>
              simp only [hpl, Option.some.injEq, Prod.mk.injEq] at h
              rw [← h.2.1]
              exact hs1
          · simp only [Option.some.injEq, Prod.mk.injEq] at h
            rw [← h.2.1]
            exact hs1

/-- The memoized bundle adopted by the C1 counterexample run. -/
def memoB : BundleInfo :=
  { uuid := some "memo1", bundle_type := "run", command := some "c",
    metadata := [("name", "mm")], dependencies := [], state_details := none }

/-- The environment of the C1 counterexample: a lone needs-new output M,
`memoize = true`, and a store whose equivalence search returns `memoB`. -/
def env1 : Env :=
  { old_inputs := [], old_output := some "M", new_inputs := [],
    new_output_name := none, worksheet_uuid := "ws", depth := 0,
    shadow := true, dry_run := false, metadata_override := [],
    skip_prelude := false, memoize := true,
    initInfos := [{ uuid := some "M", bundle_type := "run",
                    command := some "c", metadata := [("name", "m")],
                    dependencies := [], state_details := some "sd" }],
    store := fun _ => none, memoBundles := fun _ _ => [memoB],
    specsOf := fun _ => [], hostWorksheets := fun _ => [],
    worksheetItems := fun _ => [] }

/-- Counterexample for C1 as stated: in the `env1` run the adopted
memo-reused bundle's id "memo1" lands in the created set although zero
create calls were issued against the store. -/
theorem created_set_cex :
    ∃ plan st ps, mimicF env1 9 = some (.ok plan, st, ps) ∧
      st.created_uuids = [some "memo1"] ∧ st.bundleCreates = [] :=
  ⟨_, _, _, rfl, rfl, rfl⟩

/-- Witness for the amended C1 on the concrete `env1` run. -/
theorem created_set_matches_plan_witness :
    ∃ r s ps, mimicF env1 9 = some (r, s, ps) ∧
      (∀ x, x ∈ s.created_uuids ↔ x ∈ s.plan.map (fun e => e.2.uuid)) :=
  ⟨_, _, _, rfl, (created_set_matches_plan env1 9 _ _ _ rfl).1⟩

/-- The per-entry relation of the C6 correction between a dry-run plan
entry's new description and the real run's: the dry id is unset and the
two agree on bundle type, command, metadata and (absent) state details;
their ids and dependency lists differ exactly where freshly created ids
appear on the real side. -/
def SimInfo (nD nR : BundleInfo) : Prop :=
  nD.uuid = none ∧ nD.bundle_type = nR.bundle_type ∧
  nD.command = nR.command ∧ nD.metadata = nR.metadata ∧
  nD.state_details = nR.state_details

/-- The lockstep invariant between the dry-run state and the real-run
state: the substitution maps bind the same keys in the same order, the
downstream sets coincide, the plans are pointwise related (same old
description, `SimInfo`-related new descriptions), and the dry run has
issued no bundle-create calls. -/
def SimSt (sD sR : St) : Prop :=
  sD.old_to_new.map Prod.fst = sR.old_to_new.map Prod.fst ∧
  sD.downstream = sR.downstream ∧
  List.Forall₂ (fun eD eR => eD.1 = eR.1 ∧ SimInfo eD.2 eR.2) sD.plan sR.plan ∧
  sD.bundleCreates = []

theorem alookup_none_of_keys_eq {α β γ : Type} [DecidableEq α]
    {l1 : List (α × β)} {l2 : List (α × γ)}
    (hk : l1.map Prod.fst = l2.map Prod.fst) (k : α) :
    (alookup l1 k = none) ↔ (alookup l2 k = none) := by
  induction l1 generalizing l2 with
  | nil =>
    cases l2 with
    | nil => exact ⟨fun _ => rfl, fun _ => rfl⟩
    | cons q l2 => simp at hk
  | cons p l1 ih =>
    cases l2 with
    | nil => simp at hk
    | cons q l2 =>
      simp only [List.map_cons, List.cons.injEq] at hk
      by_cases hp : p.1 = k
      · have hq : q.1 = k := hk.1 ▸ hp
        simp [alookup, hp, hq]
      · have hq : ¬ q.1 = k := hk.1 ▸ hp
        simp only [alookup, if_neg hp, if_neg hq]
        exact ih hk.2

theorem alookup_isSome_of_keys_eq {α β γ : Type} [DecidableEq α]
    {l1 : List (α × β)} {l2 : List (α × γ)}
    (hk : l1.map Prod.fst = l2.map Prod.fst) (k : α) :
    (alookup l1 k).isSome = (alookup l2 k).isSome := by
  cases h1 : alookup l1 k with
  | none => rw [(alookup_none_of_keys_eq hk k).mp h1]; rfl
  | some v =>
    cases h2 : alookup l2 k with
    | some w => rfl
    | none => rw [(alookup_none_of_keys_eq hk k).mpr h2] at h1; cases h1

theorem aset_keys {α β : Type} [DecidableEq α]
    (l : List (α × β)) (k : α) (v : β) :
    (aset l k v).map Prod.fst =
      if (alookup l k).isSome then l.map Prod.fst
      else l.map Prod.fst ++ [k] := by
  unfold aset
  split
  · rw [List.map_map]
    apply List.map_congr_left
    intro p _
    by_cases hp : p.1 = k
    · simp [hp]
    · simp [hp]
  · simp

theorem aset_keys_eq {α β γ : Type} [DecidableEq α]
    {l1 : List (α × β)} {l2 : List (α × γ)}
    (hk : l1.map Prod.fst = l2.map Prod.fst) (k : α) (v : β) (w : γ) :
    (aset l1 k v).map Prod.fst = (aset l2 k w).map Prod.fst := by
  rw [aset_keys, aset_keys, hk, alookup_isSome_of_keys_eq hk k]

/-- The metadata rewrite never reads `dry_run`. -/
theorem buildMeta_dry_irrel (env : Env) (b : Bool) (u : U)
    (old_info : BundleInfo) :
    buildMeta { env with dry_run := b } u old_info =
      buildMeta env u old_info := rfl

/-- Seeding the explicit inputs touches only the map and the downstream
set. -/
theorem seedSt_fields (env : Env) :
    (seedSt env).plan = [] ∧ (seedSt env).bundleCreates = [] := by
  unfold seedSt
  have hgen : ∀ (l : List (String × String)) (st : St),
      ((l.foldl (fun st p => { st with
        old_to_new := aset st.old_to_new (some p.1) (some p.2),
        downstream := sadd st.downstream (some p.1) }) st).plan = st.plan ∧
       (l.foldl (fun st p => { st with
        old_to_new := aset st.old_to_new (some p.1) (some p.2),
        downstream := sadd st.downstream (some p.1) }) st).bundleCreates =
          st.bundleCreates) := by
    intro l
    induction l with
    | nil => intro st; exact ⟨rfl, rfl⟩
    | cons p rest ihl => intro st; exact ihl _
  exact hgen _ St.empty

/-- The ancestor collection never reads `dry_run` (inner loop). -/
theorem collectInner_dry (env : Env) (b : Bool) :
    ∀ (frontier visited : List U) (infos : List (U × BundleInfo))
      (next : List U),
    collectInner { env with dry_run := b } frontier visited infos next =
      collectInner env frontier visited infos next := by
  intro frontier
  induction frontier with
  | nil => intro _ _ _; rfl
  | cons x bs ih =>
    intro visited infos next
    simp only [collectInner]
    by_cases hv : x ∈ visited
    · rw [if_pos hv, if_pos hv]
      exact ih _ _ _
    · rw [if_neg hv, if_neg hv]
      cases hal : alookup infos x with
      | some info =>
        simp only [hal]
        exact ih _ _ _
      | none =>
        simp only [hal]
        cases hst : env.store x with
        | some info =>
          simp only [show ({ env with dry_run := b } : Env).store =
            env.store from rfl, hst]
          exact ih _ _ _
        | none =>
          simp only [show ({ env with dry_run := b } : Env).store =
            env.store from rfl, hst]

/-- The ancestor collection never reads `dry_run`. -/
theorem collectRounds_dry (env : Env) (b : Bool) :
    ∀ (d : Nat) (frontier visited : List U) (infos : List (U × BundleInfo))
      (result : List U),
    collectRounds { env with dry_run := b } d frontier visited infos result =
      collectRounds env d frontier visited infos result := by
  intro d
  induction d with
  | zero => intro _ _ _ _; rfl
  | succ d ih =>
    intro frontier visited infos result
    simp only [collectRounds, collectInner_dry]
    cases hc : collectInner env frontier visited infos [] with
    | error e => rfl
    | ok tr =>
      obtain ⟨next, visited1, infos1⟩ := tr
      exact ih _ _ _ _

/-- The lockstep relation between the outputs of one dry-run recursion and
the corresponding real-run recursion: either the real run raised an
exception (the dry run is then unconstrained, since the real run aborts
the whole invocation there), or both ran out of fuel, or both succeeded
with `SimSt`-related states. -/
def OutRel {α β : Type} (oD : Option (Except MErr α × St))
    (oR : Option (Except MErr β × St)) : Prop :=
  (∃ e sR', oR = some (.error e, sR')) ∨
  (oD = none ∧ oR = none) ∨
  (∃ vD vR sD' sR', oD = some (.ok vD, sD') ∧ oR = some (.ok vR, sR') ∧
    SimSt sD' sR')

/-- With memoization disabled, the dry-run recursion and the real-run
recursion proceed in lockstep: same traversal, same classification, same
plan structure; they differ only in the ids the real run obtains from the
store's create calls. -/
theorem recurseF_sim (env : Env) (infos : List (U × BundleInfo))
    (hmem : env.memoize = false) :
    ∀ (fuel : Nat) (u : U) (sD sR : St), SimSt sD sR →
      OutRel (recurseF { env with dry_run := true } infos fuel u sD)
             (recurseF { env with dry_run := false } infos fuel u sR) := by
  intro fuel
  induction fuel with
  | zero =>
    intro u sD sR hsim
    exact Or.inr (Or.inl ⟨rfl, rfl⟩)
  | succ n ih =>
    have hdep : ∀ (l : List Dependency) (sD sR : St), SimSt sD sR →
        OutRel (depsStep (recurseF { env with dry_run := true } infos n) l sD)
               (depsStep (recurseF { env with dry_run := false } infos n) l sR) := by
      intro l
      induction l with
      | nil =>
        intro sD sR hsim
        exact Or.inr (Or.inr ⟨[], [], sD, sR, rfl, rfl, hsim⟩)
      | cons d ds ihl =>
        intro sD sR hsim
        rcases ih d.parent_uuid sD sR hsim with
          ⟨e, sR1, hR⟩ | ⟨hDn, hRn⟩ | ⟨pD, pR, sD1, sR1, hD, hR, hsim1⟩
        · exact Or.inl ⟨e, sR1, by simp [depsStep, hR]⟩
        · exact Or.inr (Or.inl ⟨by simp [depsStep, hDn],
            by simp [depsStep, hRn]⟩)
        · rcases ihl sD1 sR1 hsim1 with
            ⟨e, sR2, hR2⟩ | ⟨hDn, hRn⟩ | ⟨lD, lR, sD2, sR2, hD2, hR2, hsim2⟩
          · exact Or.inl ⟨e, sR2, by simp [depsStep, hR, hR2]⟩
          · exact Or.inr (Or.inl ⟨by simp [depsStep, hD, hDn],
              by simp [depsStep, hR, hRn]⟩)
          · refine Or.inr (Or.inr
              ⟨{ parent_uuid := pD, parent_path := d.parent_path,
                 child_uuid := d.child_uuid, child_path := d.child_path } :: lD,
               { parent_uuid := pR, parent_path := d.parent_path,
                 child_uuid := d.child_uuid, child_path := d.child_path } :: lR,
               sD2, sR2, ?_, ?_, hsim2⟩)
            · simp [depsStep, hD, hD2]
            · simp [depsStep, hR, hR2]
    intro u sD sR hsim
    obtain ⟨hkeys, hdown, hplan, hbc⟩ := hsim
    cases hmD : alookup sD.old_to_new u with
    | some v =>
      cases hmR : alookup sR.old_to_new u with
      | none =>
        rw [(alookup_none_of_keys_eq hkeys u).mpr hmR] at hmD
        cases hmD
      | some v' =>
        refine Or.inr (Or.inr ⟨v, v', sD, sR, ?_, ?_,
          ⟨hkeys, hdown, hplan, hbc⟩⟩)
        · rw [recurseF_succ]; simp [bodyStep, hmD]
        · rw [recurseF_succ]; simp [bodyStep, hmR]
    | none =>
      have hmR : alookup sR.old_to_new u = none :=
        (alookup_none_of_keys_eq hkeys u).mp hmD
      cases hi : alookup infos u with
      | none =>
        refine Or.inr (Or.inr ⟨u, u, sD, sR, ?_, ?_,
          ⟨hkeys, hdown, hplan, hbc⟩⟩)
        · rw [recurseF_succ]; simp [bodyStep, hmD, hi]
        · rw [recurseF_succ]; simp [bodyStep, hmR, hi]
      | some old_info =>
        rcases hdep old_info.dependencies sD sR ⟨hkeys, hdown, hplan, hbc⟩ with
          ⟨e, sR1, hR⟩ | ⟨hDn, hRn⟩ | ⟨depsD, depsR, sD1, sR1, hD, hR, hsim1⟩
        · exact Or.inl ⟨e, sR1, by
            rw [recurseF_succ]; simp [bodyStep, hmR, hi, hR]⟩
        · exact Or.inr (Or.inl ⟨by
            rw [recurseF_succ]; simp [bodyStep, hmD, hi, hDn],
            by rw [recurseF_succ]; simp [bodyStep, hmR, hi, hRn]⟩)
        · obtain ⟨hkeys1, hdown1, hplan1, hbc1⟩ := hsim1
          by_cases hny : ((env.old_inputs.length = 0 ∧ u = env.old_output) ∨
              (∃ d ∈ old_info.dependencies, d.parent_uuid ∈ sR1.downstream))
          · have hnyD : ((({ env with dry_run := true } : Env).old_inputs.length = 0 ∧
                u = ({ env with dry_run := true } : Env).old_output) ∨
                (∃ d ∈ old_info.dependencies, d.parent_uuid ∈ sD1.downstream)) := by
              rw [hdown1]; exact hny
            have hnyR : ((({ env with dry_run := false } : Env).old_inputs.length = 0 ∧
                u = ({ env with dry_run := false } : Env).old_output) ∨
                (∃ d ∈ old_info.dependencies, d.parent_uuid ∈ sR1.downstream)) := hny
            cases hsd : old_info.state_details with
            | none =>
              exact Or.inl ⟨.keyError "state_details", sR1, by
                rw [recurseF_succ]
                simp only [bodyStep, hmR, hi, hR]
                rw [if_pos hnyR]
                simp [hsd]⟩
            | some sd =>
              cases hbm : buildMeta env u old_info with
              | error e =>
                exact Or.inl ⟨e, sR1, by
                  rw [recurseF_succ]
                  simp only [bodyStep, hmR, hi, hR]
                  rw [if_pos hnyR]
                  simp [hsd, buildMeta_dry_irrel, hbm]⟩
              | ok nm =>
                by_cases hbt : old_info.bundle_type ≠ "make" ∧
                    old_info.bundle_type ≠ "run"
                · refine Or.inl ⟨.usage u, sR1, ?_⟩
                  rw [recurseF_succ]
                  simp only [bodyStep, hmR, hi, hR]
                  rw [if_pos hnyR]
                  simp only [hsd, buildMeta_dry_irrel, hbm]
                  rw [if_neg (show ¬ (false = true) from by simp)]
                  rw [if_neg (show ¬ (env.memoize = true ∧
                    env.memoBundles old_info.command
                      (List.map (fun d => (d.child_path, d.parent_uuid)) depsR) ≠ [])
                    from by simp [hmem]), if_pos hbt]
                · refine Or.inr (Or.inr ⟨(none : U), some (gen sR1.fresh),
                    { sD1 with
                      plan := sD1.plan ++ [(old_info,
                        { uuid := none, bundle_type := old_info.bundle_type,
                          command := old_info.command, metadata := nm,
                          dependencies := depsD, state_details := none })],
                      downstream := sadd sD1.downstream u,
                      created_uuids := sadd sD1.created_uuids none,
                      old_to_new := aset sD1.old_to_new u none },
                    { sR1 with
                      bundleCreates := sR1.bundleCreates ++
                        [{ data :=
                            { uuid := none,
                              bundle_type := old_info.bundle_type,
                              command := old_info.command, metadata := nm,
                              dependencies := depsR, state_details := none },
                           worksheet := env.worksheet_uuid,
                           shadowOf := if env.shadow then some old_info.uuid
                                       else none,
                           detached := !env.shadow }],
                      fresh := sR1.fresh + 1,
                      plan := sR1.plan ++ [(old_info,
                        { uuid := some (gen sR1.fresh),
                          bundle_type := old_info.bundle_type,
                          command := old_info.command, metadata := nm,
                          dependencies := depsR, state_details := none })],
                      downstream := sadd sR1.downstream u,
                      created_uuids := sadd sR1.created_uuids
                        (some (gen sR1.fresh)),
                      old_to_new := aset sR1.old_to_new u
                        (some (gen sR1.fresh)) },
                    ?_, ?_, ?_⟩)
                  · rw [recurseF_succ]
                    simp only [bodyStep, hmD, hi, hD]
                    rw [if_pos hnyD]
                    simp only [hsd, buildMeta_dry_irrel, hbm, finishNode]
                    rfl
                  · rw [recurseF_succ]
                    simp only [bodyStep, hmR, hi, hR]
                    rw [if_pos hnyR]
                    simp only [hsd, buildMeta_dry_irrel, hbm]
                    rw [if_neg (show ¬ (false = true) from by simp)]
                    rw [if_neg (show ¬ (env.memoize = true ∧
                      env.memoBundles old_info.command
                        (List.map (fun d => (d.child_path, d.parent_uuid)) depsR) ≠ [])
                      from by simp [hmem]), if_neg hbt]
                    simp only [finishNode]
                  · refine ⟨?_, ?_, ?_, ?_⟩
                    · exact aset_keys_eq hkeys1 u none (some (gen sR1.fresh))
                    · simp only [hdown1]
                    · exact List.rel_append hplan1
                        (List.Forall₂.cons ⟨rfl, rfl, rfl, rfl, rfl, rfl⟩
                          List.Forall₂.nil)
                    · exact hbc1
          · have hnyD : ¬ ((({ env with dry_run := true } : Env).old_inputs.length = 0 ∧
                u = ({ env with dry_run := true } : Env).old_output) ∨
                (∃ d ∈ old_info.dependencies, d.parent_uuid ∈ sD1.downstream)) := by
              rw [hdown1]; exact hny
            have hnyR : ¬ ((({ env with dry_run := false } : Env).old_inputs.length = 0 ∧
                u = ({ env with dry_run := false } : Env).old_output) ∨
                (∃ d ∈ old_info.dependencies, d.parent_uuid ∈ sR1.downstream)) := hny
            refine Or.inr (Or.inr ⟨u, u,
              { sD1 with old_to_new := aset sD1.old_to_new u u },
              { sR1 with old_to_new := aset sR1.old_to_new u u },
              ?_, ?_, ⟨aset_keys_eq hkeys1 u u u, hdown1, hplan1, hbc1⟩⟩)
            · rw [recurseF_succ]
              simp only [bodyStep, hmD, hi, hD]
              rw [if_neg hnyD]
            · rw [recurseF_succ]
              simp only [bodyStep, hmR, hi, hR]
              rw [if_neg hnyR]

/-- The driver loop preserves the lockstep relation. -/
theorem runAll_sim (env : Env) (infos : List (U × BundleInfo))
    (hmem : env.memoize = false) (fuel : Nat) :
    ∀ (us : List U) (sD sR : St), SimSt sD sR →
      OutRel (runAll { env with dry_run := true } infos fuel us sD)
             (runAll { env with dry_run := false } infos fuel us sR) := by
  intro us
  induction us with
  | nil =>
    intro sD sR hsim
    exact Or.inr (Or.inr ⟨(), (), sD, sR, rfl, rfl, hsim⟩)
  | cons u us ihl =>
    intro sD sR hsim
    rcases recurseF_sim env infos hmem fuel u sD sR hsim with
      ⟨e, sR1, hR⟩ | ⟨hDn, hRn⟩ | ⟨vD, vR, sD1, sR1, hD, hR, hsim1⟩
    · exact Or.inl ⟨e, sR1, by simp [runAll, hR]⟩
    · exact Or.inr (Or.inl ⟨by simp [runAll, hDn], by simp [runAll, hRn]⟩)
    · rcases ihl sD1 sR1 hsim1 with
        ⟨e, sR2, hR2⟩ | ⟨hDn, hRn⟩ | ⟨vD2, vR2, sD2, sR2, hD2, hR2, hsim2⟩
      · exact Or.inl ⟨e, sR2, by simp [runAll, hR, hR2]⟩
      · exact Or.inr (Or.inl ⟨by simp [runAll, hD, hDn],
          by simp [runAll, hR, hRn]⟩)
      · exact Or.inr (Or.inr ⟨vD2, vR2, sD2, sR2,
          by simp [runAll, hD, hD2], by simp [runAll, hR, hR2], hsim2⟩)

/-- **C6** (corrected, amended form).  With memoization disabled, a
dry-run invocation that completes and the corresponding real-run
invocation that completes produce plans of the same length whose entries
correspond pointwise: identical old descriptions in identical order, and
new descriptions that agree on bundle type, command, metadata and state
details, the dry one's id being unset; the dry run performs zero
bundle-create calls and zero worksheet-item create calls.  (Ids —
the new description's own id and the dependency references to other new
descriptions — are exactly where the two plans differ, see the
counterexample against the stronger original claim.) -/
theorem dryrun_plan_correspondence (env : Env) (fuel : Nat)
    (hmem : env.memoize = false)
    (planD planR : List (BundleInfo × BundleInfo)) (sD sR : St)
    (psD psR : PlaceSt)
    (hD : mimicF { env with dry_run := true } fuel = some (.ok planD, sD, psD))
    (hR : mimicF { env with dry_run := false } fuel = some (.ok planR, sR, psR)) :
    List.Forall₂ (fun eD eR => eD.1 = eR.1 ∧ SimInfo eD.2 eR.2) planD planR ∧
    sD.bundleCreates = [] ∧ psD = PlaceSt.empty := by
  simp only [mimicF] at hD hR
  rw [collectRounds_dry] at hD hR
  rw [show seedSt { env with dry_run := true } = seedSt env from rfl] at hD
  rw [show seedSt { env with dry_run := false } = seedSt env from rfl] at hR
  cases hcol : collectRounds env env.depth
      ((mkInfos env.initInfos).map (fun p => p.1)) [] (mkInfos env.initInfos)
      ((mkInfos env.initInfos).map (fun p => p.1)) with
  | error e =>
    simp only [hcol] at hD
    simp at hD
  | ok pr =>
    obtain ⟨all, infos'⟩ := pr
    simp only [hcol] at hD hR
    have hsim0 : SimSt (seedSt env) (seedSt env) :=
      ⟨rfl, rfl, by rw [(seedSt_fields env).1]; exact List.Forall₂.nil,
       (seedSt_fields env).2⟩
    by_cases htr : truthy env.old_output = true
    · rw [if_pos htr] at hD hR
      rcases recurseF_sim env infos' hmem fuel env.old_output (seedSt env)
          (seedSt env) hsim0 with
        ⟨e, sR1, hRr⟩ | ⟨hDn, hRn⟩ | ⟨vD, vR, sD1, sR1, hDr, hRr, hsim1⟩
      · simp only [hRr] at hR
        simp at hR
      · simp only [hDn] at hD
        simp at hD
      · simp only [hDr] at hD
        simp only [hRr] at hR
        rw [if_neg (show ¬ (({ env with dry_run := true } : Env).dry_run = false ∧
            ({ env with dry_run := true } : Env).shadow = false) from by simp)] at hD
        simp only [Option.some.injEq, Prod.mk.injEq, Except.ok.injEq] at hD
        obtain ⟨hp, hs, hps⟩ := hD
        obtain ⟨hk1, hd1, hpl1, hbc1⟩ := hsim1
        split at hR
        · cases hpl : placeAll { env with dry_run := false } sR1 with
          | error e =>
            simp only [hpl] at hR
            simp at hR
          | ok pps =>
            simp only [hpl, Option.some.injEq, Prod.mk.injEq,
              Except.ok.injEq] at hR
            rw [← hp, ← hR.1, ← hs, ← hps]
            exact ⟨hpl1, hbc1, rfl⟩
        · simp only [Option.some.injEq, Prod.mk.injEq, Except.ok.injEq] at hR
          rw [← hp, ← hR.1, ← hs, ← hps]
          exact ⟨hpl1, hbc1, rfl⟩
    · rw [if_neg htr] at hD hR
      rcases runAll_sim env infos' hmem fuel all (seedSt env)
          (seedSt env) hsim0 with
        ⟨e, sR1, hRr⟩ | ⟨hDn, hRn⟩ | ⟨vD, vR, sD1, sR1, hDr, hRr, hsim1⟩
      · simp only [hRr] at hR
        simp at hR
      · simp only [hDn] at hD
        simp at hD
      · simp only [hDr] at hD
        simp only [hRr] at hR
        rw [if_neg (show ¬ (({ env with dry_run := true } : Env).dry_run = false ∧
            ({ env with dry_run := true } : Env).shadow = false) from by simp)] at hD
        simp only [Option.some.injEq, Prod.mk.injEq, Except.ok.injEq] at hD
        obtain ⟨hp, hs, hps⟩ := hD
        obtain ⟨hk1, hd1, hpl1, hbc1⟩ := hsim1
        split at hR
        · cases hpl : placeAll { env with dry_run := false } sR1 with
          | error e =>
            simp only [hpl] at hR
            simp at hR
          | ok pps =>
            simp only [hpl, Option.some.injEq, Prod.mk.injEq,
              Except.ok.injEq] at hR
            rw [← hp, ← hR.1, ← hs, ← hps]
            exact ⟨hpl1, hbc1, rfl⟩
        · simp only [Option.some.injEq, Prod.mk.injEq, Except.ok.injEq] at hR
          rw [← hp, ← hR.1, ← hs, ← hps]
          exact ⟨hpl1, hbc1, rfl⟩

/-- The explicit input of the C6 scenario. -/
def infoA6 : BundleInfo :=
  { uuid := some "A", bundle_type := "dataset", command := none,
    metadata := [("name", "a")], dependencies := [],
    state_details := some "sd" }

/-- The intermediate node of the C6 scenario (depends on the input A). -/
def infoM6 : BundleInfo :=
  { uuid := some "M", bundle_type := "run", command := some "cmd-m",
    metadata := [("name", "m")],
    dependencies := [{ parent_uuid := some "A", parent_path := "",
                       child_uuid := some "M", child_path := "a" }],
    state_details := some "sd" }

/-- The output node of the C6 scenario (depends on M). -/
def infoO6 : BundleInfo :=
  { uuid := some "O", bundle_type := "run", command := some "cmd-o",
    metadata := [("name", "o")],
    dependencies := [{ parent_uuid := some "M", parent_path := "",
                       child_uuid := some "O", child_path := "m" }],
    state_details := some "sd" }

/-- The real-run environment of the C6 scenario: input A replaced by A2,
output O, three-node chain A → M → O in the store. -/
def cenv6R : Env :=
  { old_inputs := ["A"], old_output := some "O", new_inputs := ["A2"],
    new_output_name := some "out", worksheet_uuid := "ws", depth := 5,
    shadow := false, dry_run := false, metadata_override := [],
    skip_prelude := false, memoize := false, initInfos := [infoO6],
    store := fun u => if u = some "A" then some infoA6 else
               if u = some "M" then some infoM6 else
               if u = some "O" then some infoO6 else none,
    memoBundles := fun _ _ => [], specsOf := fun _ => [],
    hostWorksheets := fun _ => [], worksheetItems := fun _ => [] }

/-- Counterexample for C6 as stated: on the A → M → O chain the dry-run
plan is NOT the real-run plan with each new description's id merely
unset — the output entry's substituted dependency refers to `None` in
the dry run but to the freshly created id of M's replacement in the real
run. -/
theorem dryrun_plan_cex :
    ∃ pD sD psD pR sR psR,
      mimicF { cenv6R with dry_run := true } 9 = some (.ok pD, sD, psD) ∧
      mimicF { cenv6R with dry_run := false } 9 = some (.ok pR, sR, psR) ∧
      pD ≠ pR.map (fun e => (e.1, { e.2 with uuid := none })) :=
  ⟨_, _, _, _, _, _, rfl, rfl, by decide⟩

/-- Witness for the amended C6 on the concrete A → M → O chain. -/
theorem dryrun_plan_correspondence_witness :
    ∃ pD sD psD pR sR psR,
      mimicF { cenv6R with dry_run := true } 9 = some (.ok pD, sD, psD) ∧
      mimicF { cenv6R with dry_run := false } 9 = some (.ok pR, sR, psR) ∧
      (List.Forall₂ (fun eD eR => eD.1 = eR.1 ∧ SimInfo eD.2 eR.2) pD pR ∧
       sD.bundleCreates = [] ∧ psD = PlaceSt.empty) :=
  ⟨_, _, _, _, _, _, rfl, rfl,
    dryrun_plan_correspondence cenv6R 9 rfl _ _ _ _ _ _ rfl rfl⟩
